import Mathlib

/-!
Verification development for the Carla-Monitoring road-network segmentation
subsystem.  The Python source is shallowly embedded: floating-point values
are modelled as rationals, Python sets of lane ids (deduplicated through
string casts in the source) are modelled as duplicate-free lists of naturals,
fallible operations return `Option`/`Except`, and the recursive map analysis
is written with an explicit fuel parameter (the theorems are conditioned on
the analysis returning a result, which is what a terminating Python run
produces).
-/

namespace CarlaMonitoring

/-! ## Decimal rendering of ids

Python renders lane ids with `str(...)`; the rasterizer stores member lane
ids of a segment as decimal strings.  `natStr`/`intStr` model `str` on
non-negative and signed integers with a fuel-structured recursion so that
they evaluate inside the kernel. -/

def digitToChar (d : Nat) : Char := Char.ofNat (48 + d)

def natStrAux : Nat → Nat → List Char
  | 0, _ => []
  | fuel + 1, n => if n < 10 then [digitToChar n] else natStrAux fuel (n / 10) ++ [digitToChar (n % 10)]

/-- Model of Python `str` on a natural number: its decimal representation. -/
def natStr (n : Nat) : String := ⟨natStrAux (n + 1) n⟩

/-- Model of Python `str` on an `int`: decimal representation with a sign. -/
def intStr (i : Int) : String := if i < 0 then "-" ++ natStr i.natAbs else natStr i.natAbs

/-! ## Geodetic locations

Both `carla.GeoLocation` and `ad.map.point.GeoPoint` are triples of
latitude, longitude and altitude; the rasterizer converts between them
componentwise with `float(...)`, so a single rational triple models both. -/

structure GeoLocation where
  latitude : ℚ
  longitude : ℚ
  altitude : ℚ
deriving DecidableEq

/-- Componentwise order on geodetic locations (used to state bounding-box
containment). -/
def geoLe (a b : GeoLocation) : Prop :=
  a.latitude ≤ b.latitude ∧ a.longitude ≤ b.longitude ∧ a.altitude ≤ b.altitude

instance (a b : GeoLocation) : Decidable (geoLe a b) := by
  unfold geoLe; infer_instance

/-! ## ScenarioSegment (scenario_rasterizer/scenario_segment.py) -/

/-- The `id` field of a `ScenarioSegment` is either the integer `-1`
(the dead sentinel branch of `__post_init__`) or a string. -/
inductive SegmentId where
  | intId (i : Int)
  | strId (s : String)
deriving DecidableEq

/-- Python `sorted` on strings (lexicographic by code point), as an insertion
sort. -/
def insertSortedString (s : String) : List String → List String
  | [] => [s]
  | t :: rest => if s ≤ t then s :: t :: rest else t :: insertSortedString s rest

def sortStrings : List String → List String
  | [] => []
  | s :: rest => insertSortedString s (sortStrings rest)

/-- Python `"-".join(sorted(lanes))` from `ScenarioSegment.__post_init__`. -/
def joinSortedLanes (lanes : List String) : String :=
  String.intercalate "-" (sortStrings lanes)

/-- Python equality between a `str` and an `int` is always `False`; this
models the comparison `self.lanes == [-1]` in `__post_init__`, whose left
side holds strings while the right side holds the integer `-1`. -/
def pyStrEqInt (_s : String) (_i : Int) : Bool := false

/-- The comparison `self.lanes == [-1]` from `__post_init__`: elementwise
Python equality of a list of strings against the one-element int list. -/
def lanesEqIntNegOne : List String → Bool
  | [s] => pyStrEqInt s (-1)
  | _ => false

structure ScenarioSegment where
  lower_bound : GeoLocation
  higher_bound : GeoLocation
  is_curve : Bool
  lanes : List String
  id : SegmentId
deriving DecidableEq

/-- The sentinel test of `ScenarioSegment.__post_init__`: both bounds equal
`GeoLocation(-1,-1,-1)`, `is_curve is False`, and `lanes == [-1]`. -/
def nullSentinelCond (lower higher : GeoLocation) (is_curve : Bool) (lanes : List String) : Bool :=
  decide (lower = ⟨-1, -1, -1⟩) && decide (higher = ⟨-1, -1, -1⟩) && (is_curve = false) &&
    lanesEqIntNegOne lanes

/-- Constructor plus `__post_init__` of `ScenarioSegment`: the id is the
integer `-1` in the sentinel branch, otherwise the hyphen-join of the sorted
lane strings. -/
def mkScenarioSegment (lower higher : GeoLocation) (is_curve : Bool) (lanes : List String) : ScenarioSegment :=
  { lower_bound := lower
    higher_bound := higher
    is_curve := is_curve
    lanes := lanes
    id := if nullSentinelCond lower higher is_curve lanes then .intId (-1) else .strId (joinSortedLanes lanes) }

/-- The `ScenarioSegment.get_null_block()` factory: note it passes the
string list `['-1']`. -/
def get_null_block : ScenarioSegment :=
  mkScenarioSegment ⟨-1, -1, -1⟩ ⟨-1, -1, -1⟩ false ["-1"]

/-- The `ScenarioSegment.is_in` membership test: latitude/longitude bounds,
altitude only when `check_altitude` is set. -/
def ScenarioSegment.is_in (seg : ScenarioSegment) (location : GeoLocation) (check_altitude : Bool) : Bool :=
  if location.latitude < seg.lower_bound.latitude ∨ location.longitude < seg.lower_bound.longitude then
    false
  else if location.latitude > seg.higher_bound.latitude ∨ location.longitude > seg.higher_bound.longitude then
    false
  else if check_altitude ∧ (location.altitude < seg.lower_bound.altitude ∨ location.altitude > seg.higher_bound.altitude) then
    false
  else
    true

/-! ## Geometry helpers (carla_helpers/map_helper.py) -/

/-- Simulation coordinates, `carla_data_classes.DataLocation`. -/
structure DataLocation where
  x : ℚ
  y : ℚ
  z : ℚ
deriving DecidableEq

/-- Three-dimensional cross product (`np.cross` on homogeneous rows). -/
def cross3 (a b : ℚ × ℚ × ℚ) : ℚ × ℚ × ℚ :=
  (a.2.1 * b.2.2 - a.2.2 * b.2.1, a.2.2 * b.1 - a.1 * b.2.2, a.1 * b.2.1 - a.2.1 * b.1)

/-- The static `MapHelper.get_intersect`: intersection of the infinite lines
through the two segments via homogeneous cross products (`to_tuple` keeps
only x and y), with the parallel guard `z == 0`. -/
def get_intersect (lane_1_start lane_1_end lane_2_start lane_2_end : DataLocation) : Option DataLocation :=
  let h1 : ℚ × ℚ × ℚ := (lane_1_start.x, lane_1_start.y, 1)
  let h2 : ℚ × ℚ × ℚ := (lane_1_end.x, lane_1_end.y, 1)
  let h3 : ℚ × ℚ × ℚ := (lane_2_start.x, lane_2_start.y, 1)
  let h4 : ℚ × ℚ × ℚ := (lane_2_end.x, lane_2_end.y, 1)
  let l1 := cross3 h1 h2
  let l2 := cross3 h3 h4
  let p := cross3 l1 l2
  if p.2.2 = 0 then none else some ⟨p.1 / p.2.2, p.2.1 / p.2.2, 0⟩

/-- The static `MapHelper.is_between`: collinearity within the fixed 0.1
epsilon plus a projection test onto the segment. -/
def is_between (a b c : DataLocation) : Bool :=
  let cross_product := (c.y - a.y) * (b.x - a.x) - (c.x - a.x) * (b.y - a.y)
  if |cross_product| > 1 / 10 then false
  else
    let dot_product := (c.x - a.x) * (b.x - a.x) + (c.y - a.y) * (b.y - a.y)
    if dot_product < 0 then false
    else
      let squared_length_ba := (b.x - a.x) * (b.x - a.x) + (b.y - a.y) * (b.y - a.y)
      if dot_product > squared_length_ba then false
      else true

/-- Inner loop of `get_contact_point_for_lanes` over consecutive midpoint
pairs of lane 2, for one fixed segment of lane 1.  `some r` means the loop
body returned `r` (either a found contact point or the early `None` the
source emits when `get_intersect` reports parallel lines); `none` means the
inner loop ran to completion without returning. -/
def contactInnerLoop (m1a m1b : DataLocation) : List DataLocation → Option (Option DataLocation)
  | c :: d :: rest =>
    match get_intersect m1a m1b c d with
    | none => some none
    | some intersection =>
      if is_between m1a m1b intersection ∧ is_between c d intersection then
        some (some intersection)
      else
        contactInnerLoop m1a m1b (d :: rest)
  | _ => none

/-- Outer loop of `get_contact_point_for_lanes` over consecutive midpoint
pairs of lane 1. -/
def contactOuterLoop (lane_2_midpoints : List DataLocation) : List DataLocation → Option DataLocation
  | a :: b :: rest =>
    match contactInnerLoop a b lane_2_midpoints with
    | some r => r
    | none => contactOuterLoop lane_2_midpoints (b :: rest)
  | _ => none

/-- `MapHelper.get_contact_point_for_lanes`, written on the two lanes'
midpoint centerlines (`DataLane.lane_midpoints`). -/
def get_contact_point_for_lanes (lane_1_midpoints lane_2_midpoints : List DataLocation) : Option DataLocation :=
  contactOuterLoop lane_2_midpoints lane_1_midpoints

/-! ## DataCriticalSection (carla_data_classes/DataCriticalSection.py) -/

/-- The fields of `DataLane` that `DataCriticalSection.__init__` reads. -/
structure DataLane where
  ad_map_lane_id : Int
  road_id : Int
  lane_id : Int
  lane_length : ℚ
deriving DecidableEq

def CRITICAL_SECTION_MARGIN : ℚ := 3

structure DataCriticalSection where
  id : String
  contact_point : DataLocation
  ad_map_lane_id_1 : Int
  road_id_1 : Int
  lane_id_1 : Int
  start_pos_1 : ℚ
  end_pos_1 : ℚ
  ad_map_lane_id_2 : Int
  road_id_2 : Int
  lane_id_2 : Int
  start_pos_2 : ℚ
  end_pos_2 : ℚ
deriving DecidableEq

/-- `DataCriticalSection.__init__`: swaps the two lanes when
`lane_2.road_id < lane_1.road_id`, builds the id string
`f"\x7blane_1.ad_map_lane_id\x7d0\x7blane_2.ad_map_lane_id\x7d"`, and clamps
the two windows to `[0, lane_length]` around the start positions with the
fixed margin. -/
def mkDataCriticalSection (contact_point : DataLocation) (lane_1 : DataLane) (start_pos_lane_1 : ℚ)
    (lane_2 : DataLane) (start_pos_lane_2 : ℚ) : DataCriticalSection :=
  let swapped := lane_2.road_id < lane_1.road_id
  let l1 := if swapped then lane_2 else lane_1
  let s1 := if swapped then start_pos_lane_2 else start_pos_lane_1
  let l2 := if swapped then lane_1 else lane_2
  let s2 := if swapped then start_pos_lane_1 else start_pos_lane_2
  { id := intStr l1.ad_map_lane_id ++ "0" ++ intStr l2.ad_map_lane_id
    contact_point := contact_point
    ad_map_lane_id_1 := l1.ad_map_lane_id
    road_id_1 := l1.road_id
    lane_id_1 := l1.lane_id
    start_pos_1 := max 0 (s1 - CRITICAL_SECTION_MARGIN)
    end_pos_1 := min l1.lane_length (s1 + CRITICAL_SECTION_MARGIN)
    ad_map_lane_id_2 := l2.ad_map_lane_id
    road_id_2 := l2.road_id
    lane_id_2 := l2.lane_id
    start_pos_2 := max 0 (s2 - CRITICAL_SECTION_MARGIN)
    end_pos_2 := min l2.lane_length (s2 + CRITICAL_SECTION_MARGIN) }

/-! ## Lane graph (the ad_map_access lane provider, as consumed by
scenario_rasterizer/infrastructure_rasterizer.py) -/

inductive LaneType where
  | NORMAL
  | INTERSECTION
  | SHOULDER
  | EMERGENCY
  | MULTI
  | PEDESTRIAN
  | OVERTAKING
  | TURN
  | BIKE
  | UNKNOWN
  | INVALID
deriving DecidableEq

inductive ContactLocation where
  | INVALID
  | UNKNOWN
  | LEFT
  | RIGHT
  | SUCCESSOR
  | PREDECESSOR
  | OVERLAP
deriving DecidableEq

inductive ContactType where
  | INVALID
  | UNKNOWN
  | FREE
  | LANE_CHANGE
  | LANE_CONTINUATION
  | LANE_END
  | SINGLE_POINT
  | STOP
  | STOP_ALL
  | YIELD
  | GATE_BARRIER
  | GATE_TOLBOOTH
  | GATE_SPIKES
  | GATE_SPIKES_CONTRA
  | CURB_UP
  | CURB_DOWN
  | SPEED_BUMP
  | TRAFFIC_LIGHT
  | CROSSWALK
  | PRIO_TO_RIGHT
  | RIGHT_OF_WAY
deriving DecidableEq

structure ContactLane where
  toLane : Nat
  location : ContactLocation
  types : List ContactType
deriving DecidableEq

/-- One lane of the loaded map.  The left/right boundary edges are kept in
geodetic coordinates (the source converts the stored ECEF edges with
`ad.map.point.toGeo` before using them).  The curvature flag abstracts
`__determine_lane_curvature`, a floating-point gradient test over the
ENU-projected edges; no claim depends on how it is computed, only on how the
rasterizer threads it, so it is carried as an attribute of the lane. -/
structure Lane where
  id : Nat
  type : LaneType
  leftEdgeGeo : List GeoLocation
  rightEdgeGeo : List GeoLocation
  curved : Bool
  contactLanes : List ContactLane
deriving DecidableEq

structure LaneGraph where
  lanes : List Lane
deriving DecidableEq

/-- `ad.map.lane.getLane` on the loaded map. -/
def LaneGraph.getLane? (g : LaneGraph) (laneID : Nat) : Option Lane :=
  g.lanes.find? (fun lane => lane.id = laneID)

/-- `ad.map.lane.getLanes()` on the loaded map: the list of lane ids. -/
def LaneGraph.ids (g : LaneGraph) : List Nat := g.lanes.map Lane.id

/-- `CONTINUATION_TYPES` from infrastructure_rasterizer.py. -/
def CONTINUATION_TYPES : List LaneType := [.NORMAL, .EMERGENCY, .MULTI, .OVERTAKING]

/-- `DRIVEABLE_LANE_TYPES` from infrastructure_rasterizer.py. -/
def DRIVEABLE_LANE_TYPES : List LaneType := [.NORMAL, .EMERGENCY, .MULTI, .OVERTAKING, .TURN, .BIKE]

/-! ## Lane-id set helpers

The source keeps Python sets of boxed `LaneId` objects and deduplicates
through string casts (`__check_existing_lane_id`, `__add_lane_id`,
`__add_lane_ids`, `__reduce_LaneID_Set`).  Since `str` is injective on lane
ids, value equality on naturals models the string-cast comparison; the sets
are modelled as duplicate-free lists so that the insertion order is
explicit. -/

/-- `__check_existing_lane_id`: membership through string casts. -/
def checkExistingLaneId (laneID : Nat) (analyzed : List Nat) : Bool := laneID ∈ analyzed

/-- `__add_lane_id`: add unless an equal id is already present. -/
def addLaneId (laneID : Nat) (idSet : List Nat) : List Nat :=
  if laneID ∈ idSet then idSet else idSet ++ [laneID]

/-- `__add_lane_ids`: add each id of the batch unless already present. -/
def addLaneIds (laneIds : List Nat) (targetSet : List Nat) : List Nat :=
  laneIds.foldl (fun t i => addLaneId i t) targetSet

/-- `__reduce_LaneID_Set`: keep the ids not contained in `laneItems`. -/
def reduceLaneIdSet (laneSet laneItems : List Nat) : List Nat :=
  laneSet.filter (fun laneID => laneID ∉ laneItems)

/-- The open-lane propagation
`[to_analyze_lane_ids.add(t) for t in _open_lanes if t not in analyzed_lane_ids]`
appearing in both recursive branches of `__analyze_lane`. -/
def propagateOpenLanes (openLanes analyzed target : List Nat) : List Nat :=
  openLanes.foldl (fun t i => if i ∈ analyzed then t else addLaneId i t) target

/-! ## Geodetic min/max accumulation -/

/-- `sys.float_info.max`, also the magnitude of the extreme coordinate
values `Latitude.getMin()` and friends (doubles in the source). -/
def FLOAT_INFO_MAX : ℚ := ((2 ^ 1024 - 2 ^ 971 : Nat) : ℚ)

/-- `__get_min_geo_point`: all three coordinates at their minimum. -/
def getMinGeoPointConst : GeoLocation := ⟨-FLOAT_INFO_MAX, -FLOAT_INFO_MAX, -FLOAT_INFO_MAX⟩

/-- `__get_max_geo_point`: all three coordinates at their maximum. -/
def getMaxGeoPointConst : GeoLocation := ⟨FLOAT_INFO_MAX, FLOAT_INFO_MAX, FLOAT_INFO_MAX⟩

/-- One step of `__calculate_Edge_Min`: lower each coordinate that exceeds
the point's. -/
def edgeMinStep (acc point : GeoLocation) : GeoLocation :=
  ⟨if acc.latitude > point.latitude then point.latitude else acc.latitude,
   if acc.longitude > point.longitude then point.longitude else acc.longitude,
   if acc.altitude > point.altitude then point.altitude else acc.altitude⟩

/-- One step of `__calulcate_edge_max`. -/
def edgeMaxStep (acc point : GeoLocation) : GeoLocation :=
  ⟨if acc.latitude < point.latitude then point.latitude else acc.latitude,
   if acc.longitude < point.longitude then point.longitude else acc.longitude,
   if acc.altitude < point.altitude then point.altitude else acc.altitude⟩

/-- `__calculate_Edge_Min`: `None` on an empty point list, otherwise the
componentwise minimum, accumulated from the extreme maximum point. -/
def calculateEdgeMin (edgeGeoPoints : List GeoLocation) : Option GeoLocation :=
  match edgeGeoPoints with
  | [] => none
  | _ => some (edgeGeoPoints.foldl edgeMinStep getMaxGeoPointConst)

/-- `__calulcate_edge_max`. -/
def calculateEdgeMax (edgeGeoPoints : List GeoLocation) : Option GeoLocation :=
  match edgeGeoPoints with
  | [] => none
  | _ => some (edgeGeoPoints.foldl edgeMaxStep getMinGeoPointConst)

/-- `__calc_bounding_points`: min and max corner over the concatenation of
the two geodetic boundary edges of the lane. -/
def calcBoundingPoints (lane : Lane) : Option GeoLocation × Option GeoLocation :=
  (calculateEdgeMin (lane.leftEdgeGeo ++ lane.rightEdgeGeo),
   calculateEdgeMax (lane.leftEdgeGeo ++ lane.rightEdgeGeo))

/-- `__calc_min_geo_point` with its `None` handling. -/
def calcMinGeoPoint : Option GeoLocation → Option GeoLocation → Option GeoLocation
  | none, none => none
  | none, some other => some other
  | some that, none => some that
  | some that, some other =>
    some ⟨if that.latitude < other.latitude then that.latitude else other.latitude,
          if that.longitude < other.longitude then that.longitude else other.longitude,
          if that.altitude < other.altitude then that.altitude else other.altitude⟩

/-- `__calc_max_geo_point` with its `None` handling. -/
def calcMaxGeoPoint : Option GeoLocation → Option GeoLocation → Option GeoLocation
  | none, none => none
  | none, some other => some other
  | some that, none => some that
  | some that, some other =>
    some ⟨if that.latitude > other.latitude then that.latitude else other.latitude,
          if that.longitude > other.longitude then that.longitude else other.longitude,
          if that.altitude > other.altitude then that.altitude else other.altitude⟩

/-- `__out_intersection`. -/
def outIntersection (lane contactLane : Lane) : Bool :=
  lane.type = LaneType.INTERSECTION ∧ contactLane.type ≠ LaneType.INTERSECTION

/-- `__into_intersection`. -/
def intoIntersection (lane contactLane : Lane) : Bool :=
  lane.type ≠ LaneType.INTERSECTION ∧ contactLane.type = LaneType.INTERSECTION

/-! ## The recursive lane analysis (`__analyze_lane`) -/

/-- The state threaded through `__analyze_lane`: the accumulated bounding
corners, the curvature flag, this block's member lane ids, the open lane ids
for future blocks, and the globally shared `analyzed_lane_ids` set (mutated
by side effect in the source, threaded explicitly here). -/
structure LaneAnalysis where
  min_pos : Option GeoLocation
  max_pos : Option GeoLocation
  curvature : Bool
  block_lane_ids : List Nat
  to_analyze_lane_ids : List Nat
  analyzed_lane_ids : List Nat
deriving DecidableEq

/-- The contact loop of `__analyze_lane`, parametrized by the recursive call
`recAnalyze` (the analysis at the remaining fuel).  `none` models a Python
exception (a contact pointing outside the map) or fuel exhaustion inside a
recursive call. -/
def analyzeContacts (g : LaneGraph) (recAnalyze : Nat → List Nat → Option LaneAnalysis) (lane : Lane) :
    List ContactLane → LaneAnalysis → Option LaneAnalysis
  | [], st => some st
  | clane :: rest, st =>
    if checkExistingLaneId clane.toLane st.analyzed_lane_ids then
      analyzeContacts g recAnalyze lane rest st
    else if clane.location = ContactLocation.SUCCESSOR ∨ clane.location = ContactLocation.PREDECESSOR then
      if ContactType.LANE_CONTINUATION ∈ clane.types then
        match g.getLane? clane.toLane with
        | none => none
        | some clane_obj =>
          if outIntersection lane clane_obj || intoIntersection lane clane_obj then
            analyzeContacts g recAnalyze lane rest
              { st with to_analyze_lane_ids := addLaneId clane.toLane st.to_analyze_lane_ids }
          else if lane.type ∈ CONTINUATION_TYPES then
            match recAnalyze clane.toLane st.analyzed_lane_ids with
            | none => none
            | some r =>
              analyzeContacts g recAnalyze lane rest
                { min_pos := calcMinGeoPoint st.min_pos r.min_pos
                  max_pos := calcMaxGeoPoint st.max_pos r.max_pos
                  curvature := st.curvature
                  block_lane_ids := addLaneIds r.block_lane_ids st.block_lane_ids
                  to_analyze_lane_ids :=
                    propagateOpenLanes r.to_analyze_lane_ids r.analyzed_lane_ids st.to_analyze_lane_ids
                  analyzed_lane_ids := r.analyzed_lane_ids }
          else
            analyzeContacts g recAnalyze lane rest st
      else
        analyzeContacts g recAnalyze lane rest st
    else if clane.location = ContactLocation.LEFT ∨ clane.location = ContactLocation.RIGHT ∨
        clane.location = ContactLocation.OVERLAP then
      match recAnalyze clane.toLane st.analyzed_lane_ids with
      | none => none
      | some r =>
        analyzeContacts g recAnalyze lane rest
          { min_pos := calcMinGeoPoint st.min_pos r.min_pos
            max_pos := calcMaxGeoPoint st.max_pos r.max_pos
            curvature := st.curvature || r.curvature
            block_lane_ids := addLaneIds r.block_lane_ids st.block_lane_ids
            to_analyze_lane_ids :=
              propagateOpenLanes r.to_analyze_lane_ids r.analyzed_lane_ids st.to_analyze_lane_ids
            analyzed_lane_ids := r.analyzed_lane_ids }
    else
      analyzeContacts g recAnalyze lane rest st

/-- `__analyze_lane`: bounding box, curvature, block member set and open
lanes for the lane, recursing through its contact relations. -/
def analyzeLane (g : LaneGraph) : Nat → Nat → List Nat → Option LaneAnalysis
  | 0, _, _ => none
  | fuel + 1, laneID, analyzed_lane_ids =>
    match g.getLane? laneID with
    | none => none
    | some lane =>
      let bp := calcBoundingPoints lane
      let curvature := if lane.type ∈ DRIVEABLE_LANE_TYPES then lane.curved else false
      analyzeContacts g (analyzeLane g fuel) lane lane.contactLanes
        { min_pos := bp.1
          max_pos := bp.2
          curvature := curvature
          block_lane_ids := addLaneId laneID []
          to_analyze_lane_ids := []
          analyzed_lane_ids := addLaneId laneID analyzed_lane_ids }

/-! ## The map analysis (`__analyze_map`) -/

/-- The `while lanes_to_analyze` loop of `__analyze_map`.  The popped lane
seeds `__analyze_lane`; the open lanes are added to the frontier which is
then reduced by the analyzed set, and one `ScenarioSegment` is emitted per
iteration. -/
def analyzeMapLoop (g : LaneGraph) : Nat → List Nat → List Nat → List ScenarioSegment → Option (List ScenarioSegment)
  | _, [], _, segments => some segments
  | 0, _ :: _, _, _ => none
  | fuel + 1, lane_id :: restToAnalyze, analyzed_lanes, segments =>
    match analyzeLane g (g.lanes.length + 1) lane_id analyzed_lanes with
    | none => none
    | some r =>
      match r.min_pos, r.max_pos with
      | some mn, some mx =>
        let lanes_to_analyze := reduceLaneIdSet (addLaneIds r.to_analyze_lane_ids restToAnalyze) r.analyzed_lane_ids
        let block := mkScenarioSegment mn mx r.curvature (r.block_lane_ids.map natStr)
        analyzeMapLoop g fuel lanes_to_analyze r.analyzed_lane_ids (segments ++ [block])
      | _, _ => none

/-- `__analyze_map`: seed the frontier with the first lane id of the map and
run the analysis loop. -/
def analyzeMap (g : LaneGraph) : Option (List ScenarioSegment) :=
  match g.ids with
  | [] => none
  | start_id :: _ => analyzeMapLoop g (g.lanes.length + 1) [start_id] [] []

/-! ## Spatial queries (`calculate_scenario_blocks`, `get_most_probable_block`) -/

/-- `math.isclose` with its default tolerances `rel_tol=1e-9`,
`abs_tol=0.0`. -/
def isclose (a b : ℚ) : Bool := |a - b| ≤ max ((1 / 10 ^ 9) * max |a| |b|) 0

/-- The error message raised by `calculate_scenario_blocks` before a map
analysis has produced blocks. -/
def NO_BLOCKS_ERROR : String :=
  "No blocks available! Have you execute methode analyze_map to generate the blocks?"

/-- `calculate_scenario_blocks`.  The rasterizer state
`self.__scenario_blocks` is `none` before a successful `analyze_map` run.
`roadDistance` abstracts `__calulcate_road_distance` (a numeric query
against the external map); its results feed only the local `result` list,
which the source builds and then discards. -/
def calculate_scenario_blocks (scenario_blocks : Option (List ScenarioSegment)) (position : GeoLocation)
    (curve_sub_calculation : Bool) (roadDistance : GeoLocation → List String → ℚ) :
    Except String (List ScenarioSegment) :=
  match scenario_blocks with
  | none => .error NO_BLOCKS_ERROR
  | some blocks =>
    if blocks = [] then .error NO_BLOCKS_ERROR
    else
      let containing_blocks := blocks.filter (fun b => b.is_in position false)
      let result := containing_blocks.filter (fun b => !b.is_curve)
      let result := if curve_sub_calculation then
          result ++ (containing_blocks.filter (fun b => b.is_curve)).filter
            (fun b => isclose (roadDistance position b.lanes) 0)
        else result
      let _ := result
      .ok containing_blocks

/-- The inner lane loop of `get_most_probable_block`: `none` when the early
return on a (close-to) zero or close-to-delta distance fires, otherwise the
accumulated minimum distance.  `signedDistance` abstracts
`ad.map.match.signedDistanceToLane` against the matched positions. -/
def scanCandidateLanes (signedDistance : String → ℚ) (acceptable_delta : ℚ) :
    List String → ℚ → Option ℚ
  | [], min_distance => some min_distance
  | lane :: rest, min_distance =>
    let distance := |signedDistance lane|
    if isclose distance 0 ∨ isclose distance acceptable_delta then none
    else scanCandidateLanes signedDistance acceptable_delta rest (min min_distance distance)

/-- The candidate loop of `get_most_probable_block`: either the first
candidate some lane of which triggered the early return, or the list of
per-candidate minimum distances. -/
def scanCandidates (signedDistance : String → ℚ) (acceptable_delta : ℚ) :
    List ScenarioSegment → List ℚ → ScenarioSegment ⊕ List ℚ
  | [], minDistances => .inr minDistances
  | candidate :: rest, minDistances =>
    match scanCandidateLanes signedDistance acceptable_delta candidate.lanes FLOAT_INFO_MAX with
    | none => .inl candidate
    | some md => scanCandidates signedDistance acceptable_delta rest (minDistances ++ [md])

/-- The first index of the minimum of a nonempty list
(`candidates_min_distances.index(min(candidates_min_distances))`). -/
def indexOfListMin (l : List ℚ) : Nat :=
  match l with
  | [] => 0
  | x :: xs => l.indexOf (xs.foldl min x)

/-- `get_most_probable_block`.  The map matcher is abstracted by
`signedDistance` (the heading hint and the matched position list only
parametrize that query). -/
def get_most_probable_block (scenario_blocks : Option (List ScenarioSegment)) (position : GeoLocation)
    (roadDistance : GeoLocation → List String → ℚ) (signedDistance : String → ℚ)
    (acceptable_delta : ℚ) (perfect_lane_match : Bool) : Except String (Option ScenarioSegment) :=
  match calculate_scenario_blocks scenario_blocks position true roadDistance with
  | .error e => .error e
  | .ok candidates =>
    if candidates = [] then .ok none
    else if candidates.length = 1 then .ok candidates.head?
    else
      match scanCandidates signedDistance acceptable_delta candidates [] with
      | .inl candidate => .ok (some candidate)
      | .inr minDistances =>
        if perfect_lane_match then .ok none
        else
          match candidates.get? (indexOfListMin minDistances) with
          | some block_min_distance => .ok (some block_min_distance)
          | none => .error "index out of range"

deriving instance DecidableEq for Except

/-! ## Helper lemmas -/

theorem natStrAux_ne_nil (fuel n : Nat) (hf : 0 < fuel) : natStrAux fuel n ≠ [] := by
  match fuel, hf with
  | f + 1, _ =>
    unfold natStrAux
    split
    · simp
    · simp

theorem natStrAux_fuel_irrelevant : ∀ f1 f2 n : Nat, n < f1 → n < f2 →
    natStrAux f1 n = natStrAux f2 n := by
  intro f1
  induction f1 with
  | zero => intro f2 n h1 _; exact absurd h1 (Nat.not_lt_zero n)
  | succ f ih =>
    intro f2 n h1 h2
    match f2, h2 with
    | f2' + 1, h2 =>
      by_cases hn : n < 10
      · simp [natStrAux, hn]
      · have hn10 : 10 ≤ n := Nat.le_of_not_lt hn
        have hdiv : n / 10 < n := Nat.div_lt_self (by omega) (by omega)
        simp only [natStrAux, hn, if_false]
        rw [ih f2' (n / 10) (by omega) (by omega)]

theorem digitToChar_inj {a b : Nat} (ha : a < 10) (hb : b < 10) (h : digitToChar a = digitToChar b) :
    a = b := by
  have hv : (digitToChar a).toNat = (digitToChar b).toNat := by rw [h]
  have ea : (digitToChar a).toNat = 48 + a := by
    interval_cases a <;> rfl
  have eb : (digitToChar b).toNat = 48 + b := by
    interval_cases b <;> rfl
  omega

theorem natStr_inj : ∀ n m : Nat, natStr n = natStr m → n = m := by
  have key : ∀ n : Nat, ∀ m : Nat, m ≤ n → ∀ k, k ≤ n →
      natStrAux (m + 1) m = natStrAux (k + 1) k → m = k := by
    intro n
    induction n with
    | zero =>
      intro m hm k hk h
      interval_cases m
      interval_cases k
      rfl
    | succ n ih =>
      intro m hm k hk h
      by_cases hm10 : m < 10
      · by_cases hk10 : k < 10
        · simp only [natStrAux, hm10, hk10, if_true] at h
          have := List.head_eq_of_cons_eq h
          exact digitToChar_inj hm10 hk10 this
        · exfalso
          simp only [natStrAux, hm10, hk10, if_true, if_false] at h
          have hne : natStrAux k (k / 10) ≠ [] := natStrAux_ne_nil k (k / 10) (by omega)
          have hpos : 0 < (natStrAux k (k / 10)).length := List.length_pos.mpr hne
          have hlen := congrArg List.length h
          rw [List.length_append] at hlen
          simp only [List.length_singleton] at hlen
          omega
      · by_cases hk10 : k < 10
        · exfalso
          simp only [natStrAux, hm10, hk10, if_true, if_false] at h
          have hne : natStrAux m (m / 10) ≠ [] := natStrAux_ne_nil m (m / 10) (by omega)
          have hpos : 0 < (natStrAux m (m / 10)).length := List.length_pos.mpr hne
          have hlen := congrArg List.length h
          rw [List.length_append] at hlen
          simp only [List.length_singleton] at hlen
          omega
        · have hmd : m / 10 < m := Nat.div_lt_self (by omega) (by omega)
          have hkd : k / 10 < k := Nat.div_lt_self (by omega) (by omega)
          simp only [natStrAux, hm10, hk10, if_false] at h
          rw [natStrAux_fuel_irrelevant m (m / 10 + 1) (m / 10) hmd (Nat.lt_succ_self _)] at h
          rw [natStrAux_fuel_irrelevant k (k / 10 + 1) (k / 10) hkd (Nat.lt_succ_self _)] at h
          have hinj := List.append_inj' h (by simp)
          have h1 : m / 10 = k / 10 := ih (m / 10) (by omega) (k / 10) (by omega) hinj.1
          have h2 : m % 10 = k % 10 := by
            have := List.head_eq_of_cons_eq hinj.2
            exact digitToChar_inj (Nat.mod_lt _ (by omega)) (Nat.mod_lt _ (by omega)) this
          omega
  intro n m h
  have h' : natStrAux (n + 1) n = natStrAux (m + 1) m := congrArg String.data h
  exact key (max n m) n (Nat.le_max_left n m) m (Nat.le_max_right n m) h'

theorem mem_addLaneId {x i : Nat} {s : List Nat} : x ∈ addLaneId i s ↔ x = i ∨ x ∈ s := by
  unfold addLaneId
  split
  · rename_i h
    constructor
    · exact Or.inr
    · rintro (rfl | hx)
      · exact h
      · exact hx
  · simp [or_comm]

theorem mem_addLaneIds {x : Nat} {ids t : List Nat} : x ∈ addLaneIds ids t ↔ x ∈ ids ∨ x ∈ t := by
  induction ids generalizing t with
  | nil => simp [addLaneIds]
  | cons i rest ih =>
    show x ∈ addLaneIds rest (addLaneId i t) ↔ _
    rw [ih, mem_addLaneId]
    simp only [List.mem_cons]
    tauto

theorem mem_propagateOpenLanes {x : Nat} {op an t : List Nat} :
    x ∈ propagateOpenLanes op an t ↔ (x ∈ op ∧ x ∉ an) ∨ x ∈ t := by
  induction op generalizing t with
  | nil => simp [propagateOpenLanes]
  | cons i rest ih =>
    show x ∈ propagateOpenLanes rest an (if i ∈ an then t else addLaneId i t) ↔ _
    by_cases hi : i ∈ an
    · rw [if_pos hi, ih]
      simp only [List.mem_cons]
      constructor
      · rintro (⟨h1, h2⟩ | h)
        · exact Or.inl ⟨Or.inr h1, h2⟩
        · exact Or.inr h
      · rintro (⟨(rfl | h1), h2⟩ | h)
        · exact absurd hi h2
        · exact Or.inl ⟨h1, h2⟩
        · exact Or.inr h
    · rw [if_neg hi, ih, mem_addLaneId]
      simp only [List.mem_cons]
      constructor
      · rintro (⟨h1, h2⟩ | (rfl | h))
        · exact Or.inl ⟨Or.inr h1, h2⟩
        · exact Or.inl ⟨Or.inl rfl, hi⟩
        · exact Or.inr h
      · rintro (⟨(rfl | h1), h2⟩ | h)
        · exact Or.inr (Or.inl rfl)
        · exact Or.inl ⟨h1, h2⟩
        · exact Or.inr (Or.inr h)

theorem mem_reduceLaneIdSet {x : Nat} {s items : List Nat} :
    x ∈ reduceLaneIdSet s items ↔ x ∈ s ∧ x ∉ items := by
  simp [reduceLaneIdSet]

theorem geoLe_refl (a : GeoLocation) : geoLe a a := ⟨le_refl _, le_refl _, le_refl _⟩

theorem geoLe_trans {a b c : GeoLocation} (h1 : geoLe a b) (h2 : geoLe b c) : geoLe a c :=
  ⟨le_trans h1.1 h2.1, le_trans h1.2.1 h2.2.1, le_trans h1.2.2 h2.2.2⟩

theorem edgeMinStep_le_left (acc p : GeoLocation) : geoLe (edgeMinStep acc p) acc := by
  refine ⟨?_, ?_, ?_⟩ <;> (dsimp only [edgeMinStep]; split <;> linarith)

theorem edgeMinStep_le_right (acc p : GeoLocation) : geoLe (edgeMinStep acc p) p := by
  refine ⟨?_, ?_, ?_⟩ <;> (dsimp only [edgeMinStep]; split <;> linarith)

theorem edgeMaxStep_ge_left (acc p : GeoLocation) : geoLe acc (edgeMaxStep acc p) := by
  refine ⟨?_, ?_, ?_⟩ <;> (dsimp only [edgeMaxStep]; split <;> linarith)

theorem edgeMaxStep_ge_right (acc p : GeoLocation) : geoLe p (edgeMaxStep acc p) := by
  refine ⟨?_, ?_, ?_⟩ <;> (dsimp only [edgeMaxStep]; split <;> linarith)

theorem foldl_edgeMinStep_mono {q : GeoLocation} : ∀ (pts : List GeoLocation) (seed : GeoLocation),
    geoLe seed q → geoLe (pts.foldl edgeMinStep seed) q := by
  intro pts
  induction pts with
  | nil => intro seed h; exact h
  | cons x rest ih =>
    intro seed h
    exact ih (edgeMinStep seed x) (geoLe_trans (edgeMinStep_le_left seed x) h)

theorem foldl_edgeMaxStep_mono {q : GeoLocation} : ∀ (pts : List GeoLocation) (seed : GeoLocation),
    geoLe q seed → geoLe q (pts.foldl edgeMaxStep seed) := by
  intro pts
  induction pts with
  | nil => intro seed h; exact h
  | cons x rest ih =>
    intro seed h
    exact ih (edgeMaxStep seed x) (geoLe_trans h (edgeMaxStep_ge_left seed x))

theorem foldl_edgeMinStep_le {p : GeoLocation} : ∀ (pts : List GeoLocation) (seed : GeoLocation),
    p ∈ pts → geoLe (pts.foldl edgeMinStep seed) p := by
  intro pts
  induction pts with
  | nil => intro seed h; cases h
  | cons x rest ih =>
    intro seed h
    rcases List.mem_cons.mp h with rfl | h
    · exact foldl_edgeMinStep_mono rest (edgeMinStep seed p) (edgeMinStep_le_right seed p)
    · exact ih (edgeMinStep seed x) h

theorem foldl_edgeMaxStep_ge {p : GeoLocation} : ∀ (pts : List GeoLocation) (seed : GeoLocation),
    p ∈ pts → geoLe p (pts.foldl edgeMaxStep seed) := by
  intro pts
  induction pts with
  | nil => intro seed h; cases h
  | cons x rest ih =>
    intro seed h
    rcases List.mem_cons.mp h with rfl | h
    · exact foldl_edgeMaxStep_mono rest (edgeMaxStep seed p) (edgeMaxStep_ge_right seed p)
    · exact ih (edgeMaxStep seed x) h

theorem calculateEdgeMin_le {pts : List GeoLocation} {m : GeoLocation}
    (h : calculateEdgeMin pts = some m) : ∀ p ∈ pts, geoLe m p := by
  intro p hp
  match pts, hp with
  | x :: rest, hp =>
    have he : some ((x :: rest).foldl edgeMinStep getMaxGeoPointConst) = some m := h
    rw [← Option.some.inj he]
    exact foldl_edgeMinStep_le (x :: rest) getMaxGeoPointConst hp

theorem calculateEdgeMax_ge {pts : List GeoLocation} {m : GeoLocation}
    (h : calculateEdgeMax pts = some m) : ∀ p ∈ pts, geoLe p m := by
  intro p hp
  match pts, hp with
  | x :: rest, hp =>
    have he : some ((x :: rest).foldl edgeMaxStep getMinGeoPointConst) = some m := h
    rw [← Option.some.inj he]
    exact foldl_edgeMaxStep_ge (x :: rest) getMinGeoPointConst hp

theorem calcMinGeoPoint_le_components {a b c : GeoLocation}
    (h : calcMinGeoPoint (some a) (some b) = some c) : geoLe c a ∧ geoLe c b := by
  simp only [calcMinGeoPoint, Option.some.injEq] at h
  subst h
  constructor
  · refine ⟨?_, ?_, ?_⟩ <;> (dsimp only; split <;> linarith)
  · refine ⟨?_, ?_, ?_⟩ <;> (dsimp only; split <;> linarith)

theorem calcMaxGeoPoint_ge_components {a b c : GeoLocation}
    (h : calcMaxGeoPoint (some a) (some b) = some c) : geoLe a c ∧ geoLe b c := by
  simp only [calcMaxGeoPoint, Option.some.injEq] at h
  subst h
  constructor
  · refine ⟨?_, ?_, ?_⟩ <;> (dsimp only; split <;> linarith)
  · refine ⟨?_, ?_, ?_⟩ <;> (dsimp only; split <;> linarith)

theorem calcMinGeoPoint_some_left {a : GeoLocation} (b : Option GeoLocation) :
    ∃ c, calcMinGeoPoint (some a) b = some c ∧ geoLe c a := by
  match b with
  | none => exact ⟨a, rfl, geoLe_refl a⟩
  | some b' =>
    have h : ∃ c, calcMinGeoPoint (some a) (some b') = some c := ⟨_, rfl⟩
    rcases h with ⟨c, hc⟩
    exact ⟨c, hc, (calcMinGeoPoint_le_components hc).1⟩

theorem calcMinGeoPoint_some_right {b : GeoLocation} (a : Option GeoLocation) :
    ∃ c, calcMinGeoPoint a (some b) = some c ∧ geoLe c b := by
  match a with
  | none => exact ⟨b, rfl, geoLe_refl b⟩
  | some a' =>
    have h : ∃ c, calcMinGeoPoint (some a') (some b) = some c := ⟨_, rfl⟩
    rcases h with ⟨c, hc⟩
    exact ⟨c, hc, (calcMinGeoPoint_le_components hc).2⟩

theorem calcMaxGeoPoint_some_left {a : GeoLocation} (b : Option GeoLocation) :
    ∃ c, calcMaxGeoPoint (some a) b = some c ∧ geoLe a c := by
  match b with
  | none => exact ⟨a, rfl, geoLe_refl a⟩
  | some b' =>
    have h : ∃ c, calcMaxGeoPoint (some a) (some b') = some c := ⟨_, rfl⟩
    rcases h with ⟨c, hc⟩
    exact ⟨c, hc, (calcMaxGeoPoint_ge_components hc).1⟩

theorem calcMaxGeoPoint_some_right {b : GeoLocation} (a : Option GeoLocation) :
    ∃ c, calcMaxGeoPoint a (some b) = some c ∧ geoLe b c := by
  match a with
  | none => exact ⟨b, rfl, geoLe_refl b⟩
  | some a' =>
    have h : ∃ c, calcMaxGeoPoint (some a') (some b) = some c := ⟨_, rfl⟩
    rcases h with ⟨c, hc⟩
    exact ⟨c, hc, (calcMaxGeoPoint_ge_components hc).2⟩

/-! ## Shared example data for the concrete theorems -/

/-- First blocks-list candidate used by the C3 inputs: a unit box around the
origin whose single member lane is "1". -/
def exSegA : ScenarioSegment := mkScenarioSegment ⟨0, 0, 0⟩ ⟨1, 1, 1⟩ false ["1"]

/-- Second candidate: the same box with member lane "2". -/
def exSegB : ScenarioSegment := mkScenarioSegment ⟨0, 0, 0⟩ ⟨1, 1, 1⟩ false ["2"]

/-- Abstract signed-distance query: lane "1" is half the acceptable delta
away, every other lane is a perfect match. -/
def exSignedDistance : String → ℚ := fun s => if s = "1" then 1 / 2000 else 0

/-- Abstract road-distance query (never close to zero). -/
def exRoadDistance : GeoLocation → List String → ℚ := fun _ _ => 1

/-! ## Claim C1 -/

/-- C1: `get_contact_point_for_lanes` is claimed to skip a parallel segment
pair and return the first on-both-segments intersection of a later pair.
On these centerlines the very first pair of segments is parallel and the
function returns `None`, although the next lane-2 segment intersects the
lane-1 segment at (3/4, 0), a point lying on both finite segments: the
source returns `None` from inside the loop instead of continuing, which
contradicts its own docstring ("Returns the first matching contact point
for the given lanes"). -/
theorem contact_point_parallel_abort_bug :
    get_contact_point_for_lanes [⟨0, 0, 0⟩, ⟨1, 0, 0⟩] [⟨0, -1, 0⟩, ⟨1, -1, 0⟩, ⟨1/2, 1, 0⟩] = none ∧
    get_intersect ⟨0, 0, 0⟩ ⟨1, 0, 0⟩ ⟨0, -1, 0⟩ ⟨1, -1, 0⟩ = none ∧
    get_intersect ⟨0, 0, 0⟩ ⟨1, 0, 0⟩ ⟨1, -1, 0⟩ ⟨1/2, 1, 0⟩ = some ⟨3/4, 0, 0⟩ ∧
    is_between ⟨0, 0, 0⟩ ⟨1, 0, 0⟩ ⟨3/4, 0, 0⟩ = true ∧
    is_between ⟨1, -1, 0⟩ ⟨1/2, 1, 0⟩ ⟨3/4, 0, 0⟩ = true := by
  with_unfolding_all decide

/-! ## Claim C2 -/

/-- C2 counterexample: for two lanes with the same road id but different
lane ids, the critical sections built from (a, b) and from (b, a) have
different ids: the constructor only swaps on a strictly smaller road id, so
equal road ids keep the argument order. -/
theorem critical_section_id_equal_road_ids_cex :
    (mkDataCriticalSection ⟨0, 0, 0⟩ ⟨1, 7, 0, 10⟩ 0 ⟨2, 7, 0, 10⟩ 0).id ≠
      (mkDataCriticalSection ⟨0, 0, 0⟩ ⟨2, 7, 0, 10⟩ 0 ⟨1, 7, 0, 10⟩ 0).id := by
  with_unfolding_all decide

/-- C2 (amended): the ordering rule always places a road id that is less
than or equal to the other first, and whenever the two road ids are
distinct the critical sections built from (a, b) and (b, a) have the same
id; with equal road ids the id follows the argument order. -/
theorem critical_section_id_canonical_amended (cp cp' : DataLocation) (a b : DataLane)
    (sa sb sa' sb' : ℚ) (h : a.road_id ≠ b.road_id) :
    (mkDataCriticalSection cp a sa b sb).id = (mkDataCriticalSection cp' b sb' a sa').id ∧
    (∀ (cq : DataLocation) (c d : DataLane) (s t : ℚ),
      (mkDataCriticalSection cq c s d t).road_id_1 ≤ (mkDataCriticalSection cq c s d t).road_id_2) := by
  constructor
  · rcases Ne.lt_or_lt h with hab | hba
    · have h1 : ¬ (b.road_id < a.road_id) := by omega
      have h2 : a.road_id < b.road_id := hab
      simp [mkDataCriticalSection, h1, h2]
    · have h1 : b.road_id < a.road_id := hba
      have h2 : ¬ (a.road_id < b.road_id) := by omega
      simp [mkDataCriticalSection, h1, h2]
  · intro cq c d s t
    by_cases hcd : d.road_id < c.road_id
    · simp [mkDataCriticalSection, hcd]
      omega
    · simp [mkDataCriticalSection, hcd]
      omega

/-- Witness for the amended C2 at concrete lanes with road ids 1 and 2. -/
theorem critical_section_id_canonical_amended_witness :
    (mkDataCriticalSection ⟨0, 0, 0⟩ ⟨101, 1, 1, 20⟩ 10 ⟨202, 2, 2, 15⟩ 5).id =
      (mkDataCriticalSection ⟨1, 1, 1⟩ ⟨202, 2, 2, 15⟩ 5 ⟨101, 1, 1, 20⟩ 10).id ∧
    (∀ (cq : DataLocation) (c d : DataLane) (s t : ℚ),
      (mkDataCriticalSection cq c s d t).road_id_1 ≤ (mkDataCriticalSection cq c s d t).road_id_2) :=
  critical_section_id_canonical_amended ⟨0, 0, 0⟩ ⟨1, 1, 1⟩ ⟨101, 1, 1, 20⟩ ⟨202, 2, 2, 15⟩
    10 5 10 5 (by decide)

/-! ## Claim C8 -/

/-- C8: each per-lane window of a critical section is
`[max(0, d - margin), min(length, d + margin)]` with the fixed margin 3 for
the lane assigned to that slot (after the road-id ordering), and the
concrete scenario — lane lengths 20 and 15, contact distances 10 and 5 —
produces the windows [7, 13] and [2, 8]. -/
theorem critical_section_window_formula :
    (∀ (cp : DataLocation) (lane_1 : DataLane) (s1 : ℚ) (lane_2 : DataLane) (s2 : ℚ),
      (mkDataCriticalSection cp lane_1 s1 lane_2 s2).start_pos_1 =
        max 0 ((if lane_2.road_id < lane_1.road_id then s2 else s1) - 3) ∧
      (mkDataCriticalSection cp lane_1 s1 lane_2 s2).end_pos_1 =
        min (if lane_2.road_id < lane_1.road_id then lane_2.lane_length else lane_1.lane_length)
          ((if lane_2.road_id < lane_1.road_id then s2 else s1) + 3) ∧
      (mkDataCriticalSection cp lane_1 s1 lane_2 s2).start_pos_2 =
        max 0 ((if lane_2.road_id < lane_1.road_id then s1 else s2) - 3) ∧
      (mkDataCriticalSection cp lane_1 s1 lane_2 s2).end_pos_2 =
        min (if lane_2.road_id < lane_1.road_id then lane_1.lane_length else lane_2.lane_length)
          ((if lane_2.road_id < lane_1.road_id then s1 else s2) + 3)) ∧
    ((mkDataCriticalSection ⟨0, 0, 0⟩ ⟨101, 1, 1, 20⟩ 10 ⟨202, 2, 2, 15⟩ 5).start_pos_1 = 7 ∧
     (mkDataCriticalSection ⟨0, 0, 0⟩ ⟨101, 1, 1, 20⟩ 10 ⟨202, 2, 2, 15⟩ 5).end_pos_1 = 13 ∧
     (mkDataCriticalSection ⟨0, 0, 0⟩ ⟨101, 1, 1, 20⟩ 10 ⟨202, 2, 2, 15⟩ 5).start_pos_2 = 2 ∧
     (mkDataCriticalSection ⟨0, 0, 0⟩ ⟨101, 1, 1, 20⟩ 10 ⟨202, 2, 2, 15⟩ 5).end_pos_2 = 8) := by
  constructor
  · intro cp lane_1 s1 lane_2 s2
    by_cases hsw : lane_2.road_id < lane_1.road_id <;>
      simp [mkDataCriticalSection, CRITICAL_SECTION_MARGIN, hsw]
  · with_unfolding_all decide

/-! ## Claim C9 -/

/-- C9: the null block's id is the string "-1", produced by the ordinary
sorted hyphen-join of its lane list `['-1']`; the sentinel branch of
`__post_init__` is not taken because its comparison `lanes == [-1]` holds
integers on the right while the factory passes strings. -/
theorem null_block_id_string :
    get_null_block.id = SegmentId.strId "-1" ∧
    get_null_block.id = SegmentId.strId (joinSortedLanes ["-1"]) ∧
    nullSentinelCond ⟨-1, -1, -1⟩ ⟨-1, -1, -1⟩ false ["-1"] = false := by
  with_unfolding_all decide

/-! ## Claim C7 -/

/-- C7: querying spatial containment (`calculate_scenario_blocks`) or the
resolution built on it (`get_most_probable_block`) before a successful map
analysis (blocks state `none`) raises the explicit "no blocks available"
error instead of returning an empty result. -/
theorem query_before_analysis_errors :
    ∀ (position : GeoLocation) (curve_sub : Bool) (roadDistance : GeoLocation → List String → ℚ)
      (signedDistance : String → ℚ) (acceptable_delta : ℚ) (perfect : Bool),
    calculate_scenario_blocks none position curve_sub roadDistance = .error NO_BLOCKS_ERROR ∧
    get_most_probable_block none position roadDistance signedDistance acceptable_delta perfect =
      .error NO_BLOCKS_ERROR := by
  intro position curve_sub roadDistance signedDistance acceptable_delta perfect
  exact ⟨rfl, rfl⟩

/-! ## Claim C10 -/

/-- C10: `calculate_scenario_blocks` returns exactly the containing blocks
(the latitude/longitude box filter), and the result is identical whether
`curve_sub_calculation` is set or not: the curved-block sub-filtering only
builds a local list that is never returned. -/
theorem scenario_blocks_flag_independent :
    (∀ (scenario_blocks : Option (List ScenarioSegment)) (position : GeoLocation)
       (roadDistance : GeoLocation → List String → ℚ),
      calculate_scenario_blocks scenario_blocks position true roadDistance =
        calculate_scenario_blocks scenario_blocks position false roadDistance) ∧
    (∀ (b : ScenarioSegment) (bs : List ScenarioSegment) (position : GeoLocation)
       (curve_sub : Bool) (roadDistance : GeoLocation → List String → ℚ),
      calculate_scenario_blocks (some (b :: bs)) position curve_sub roadDistance =
        .ok ((b :: bs).filter (fun s => s.is_in position false))) := by
  constructor
  · intro scenario_blocks position roadDistance
    match scenario_blocks with
    | none => rfl
    | some blocks =>
      by_cases h : blocks = [] <;> simp [calculate_scenario_blocks, h]
  · intro b bs position curve_sub roadDistance
    simp [calculate_scenario_blocks]

/-! ## Claim C3 -/

/-- The condition that fires the early return inside the candidate-lane
loop of `get_most_probable_block`: the absolute signed distance is
(floating-close to) zero or floating-close to `acceptable_delta` itself. -/
def earlyExitTrigger (signedDistance : String → ℚ) (acceptable_delta : ℚ) (lane : String) : Prop :=
  isclose |signedDistance lane| 0 ∨ isclose |signedDistance lane| acceptable_delta

instance (sd : String → ℚ) (δ : ℚ) (lane : String) : Decidable (earlyExitTrigger sd δ lane) := by
  unfold earlyExitTrigger; infer_instance

theorem scanCandidateLanes_none_of_trigger {sd : String → ℚ} {δ : ℚ} :
    ∀ (lanes : List String), (∃ l ∈ lanes, earlyExitTrigger sd δ l) →
    ∀ md, scanCandidateLanes sd δ lanes md = none := by
  intro lanes
  induction lanes with
  | nil => rintro ⟨l, hl, _⟩ _; cases hl
  | cons x rest ih =>
    rintro ⟨l, hl, htrig⟩ md
    by_cases hx : earlyExitTrigger sd δ x
    · unfold earlyExitTrigger at hx
      simp only [scanCandidateLanes]
      rw [if_pos hx]
    · rcases List.mem_cons.mp hl with rfl | hl'
      · exact absurd htrig hx
      · unfold earlyExitTrigger at hx
        simp only [scanCandidateLanes]
        rw [if_neg hx]
        exact ih ⟨l, hl', htrig⟩ _

theorem scanCandidateLanes_some_of_no_trigger {sd : String → ℚ} {δ : ℚ} :
    ∀ (lanes : List String), (∀ l ∈ lanes, ¬ earlyExitTrigger sd δ l) →
    ∀ md, ∃ v, scanCandidateLanes sd δ lanes md = some v := by
  intro lanes
  induction lanes with
  | nil => intro _ md; exact ⟨md, rfl⟩
  | cons x rest ih =>
    intro h md
    have hx : ¬ earlyExitTrigger sd δ x := h x (List.mem_cons_self x rest)
    unfold earlyExitTrigger at hx
    simp only [scanCandidateLanes]
    rw [if_neg hx]
    exact ih (fun l hl => h l (List.mem_cons_of_mem x hl)) _

theorem scanCandidates_first_trigger {sd : String → ℚ} {δ : ℚ} {c : ScenarioSegment}
    (hc : ∃ l ∈ c.lanes, earlyExitTrigger sd δ l) :
    ∀ (pre : List ScenarioSegment), (∀ c' ∈ pre, ∀ l ∈ c'.lanes, ¬ earlyExitTrigger sd δ l) →
    ∀ (post : List ScenarioSegment) (mins : List ℚ),
    scanCandidates sd δ (pre ++ c :: post) mins = .inl c := by
  intro pre
  induction pre with
  | nil =>
    intro _ post mins
    simp only [List.nil_append, scanCandidates]
    rw [scanCandidateLanes_none_of_trigger c.lanes hc FLOAT_INFO_MAX]
  | cons p rest ih =>
    intro hpre post mins
    have hp : ∀ l ∈ p.lanes, ¬ earlyExitTrigger sd δ l := hpre p (List.mem_cons_self p rest)
    rcases scanCandidateLanes_some_of_no_trigger p.lanes hp FLOAT_INFO_MAX with ⟨v, hv⟩
    simp only [List.cons_append, scanCandidates]
    rw [hv]
    exact ih (fun c' hc' => hpre c' (List.mem_cons_of_mem p hc')) post _

set_option maxRecDepth 4000 in
/-- C3 counterexample: with two containing candidates, the first candidate
has a lane whose absolute signed distance (1/2000) is within
`acceptable_delta` (1/1000) of zero, yet `get_most_probable_block` skips it
(the code's early exit only fires on distances equal to zero or close to
the delta itself) and returns the second candidate. -/
theorem most_probable_block_within_delta_cex :
    (∃ l ∈ exSegA.lanes, |exSignedDistance l| ≤ 1/1000) ∧
    ([exSegA, exSegB].filter (fun s => s.is_in ⟨1/2, 1/2, 0⟩ false)) = [exSegA, exSegB] ∧
    get_most_probable_block (some [exSegA, exSegB]) ⟨1/2, 1/2, 0⟩ exRoadDistance exSignedDistance
      (1/1000) false = .ok (some exSegB) ∧
    exSegB ≠ exSegA := by
  with_unfolding_all decide

/-- C3 (amended): with more than one containing candidate, the candidates
are scanned in enumeration order and the first candidate having a member
lane whose absolute signed distance is exactly (floating-close to) zero or
floating-close to `acceptable_delta` itself is returned immediately,
independently of the remaining candidates and of `perfect_lane_match`;
distances strictly between zero and the delta do not fire the early exit. -/
theorem most_probable_block_early_exit_amended (bs : List ScenarioSegment)
    (position : GeoLocation) (roadDistance : GeoLocation → List String → ℚ)
    (sd : String → ℚ) (δ : ℚ) (perfect : Bool)
    (pre post : List ScenarioSegment) (c : ScenarioSegment)
    (hfilter : bs.filter (fun s => s.is_in position false) = pre ++ c :: post)
    (hlen : 1 < (pre ++ c :: post).length)
    (hpre : ∀ c' ∈ pre, ∀ l ∈ c'.lanes, ¬ earlyExitTrigger sd δ l)
    (hc : ∃ l ∈ c.lanes, earlyExitTrigger sd δ l) :
    get_most_probable_block (some bs) position roadDistance sd δ perfect = .ok (some c) := by
  have hbs : bs ≠ [] := by
    intro hnil
    rw [hnil] at hfilter
    exact List.cons_ne_nil c post (List.append_eq_nil.mp hfilter.symm).2
  have hcands : calculate_scenario_blocks (some bs) position true roadDistance =
      .ok (pre ++ c :: post) := by
    simp [calculate_scenario_blocks, hbs, hfilter]
  unfold get_most_probable_block
  rw [hcands]
  have hne : ¬ (pre ++ c :: post = []) := by
    intro hnil
    exact List.cons_ne_nil c post (List.append_eq_nil.mp hnil).2
  have hlen1 : ¬ ((pre ++ c :: post).length = 1) := by omega
  simp only [hne, if_false, hlen1]
  rw [scanCandidates_first_trigger hc pre hpre post []]

/-- Witness for the amended C3 at the two concrete candidates. -/
theorem most_probable_block_early_exit_amended_witness :
    get_most_probable_block (some [exSegA, exSegB]) ⟨1/2, 1/2, 0⟩ exRoadDistance exSignedDistance
      (1/1000) false = .ok (some exSegB) :=
  most_probable_block_early_exit_amended [exSegA, exSegB] ⟨1/2, 1/2, 0⟩ exRoadDistance
    exSignedDistance (1/1000) false [exSegA] [] exSegB
    (by with_unfolding_all decide)
    (by with_unfolding_all decide)
    (by with_unfolding_all decide)
    (by with_unfolding_all decide)

/-! ## Relations induced by the contact handling of the analysis

The contact loop of the source handles exactly three kinds of contact:
Left/Right/Overlap contacts and non-boundary Successor/Predecessor
continuations are merged into the current block, boundary-crossing
continuations are recorded as open lanes, and everything else is ignored. -/

/-- A contact that the recursion merges into the current block: a
Left/Right/Overlap contact, or a Successor/Predecessor contact carrying
LANE_CONTINUATION that does not cross an intersection boundary while the
current lane has a continuation type. -/
def mergeContactShape (g : LaneGraph) (lane : Lane) (c : ContactLane) : Prop :=
  (c.location = ContactLocation.LEFT ∨ c.location = ContactLocation.RIGHT ∨
    c.location = ContactLocation.OVERLAP) ∨
  ((c.location = ContactLocation.SUCCESSOR ∨ c.location = ContactLocation.PREDECESSOR) ∧
    ContactType.LANE_CONTINUATION ∈ c.types ∧ lane.type ∈ CONTINUATION_TYPES ∧
    ∃ lb, g.getLane? c.toLane = some lb ∧
      outIntersection lane lb = false ∧ intoIntersection lane lb = false)

/-- A contact recorded as a boundary (open) lane: a Successor/Predecessor
contact carrying LANE_CONTINUATION that crosses an intersection boundary. -/
def boundaryContactShape (g : LaneGraph) (lane : Lane) (c : ContactLane) : Prop :=
  (c.location = ContactLocation.SUCCESSOR ∨ c.location = ContactLocation.PREDECESSOR) ∧
  ContactType.LANE_CONTINUATION ∈ c.types ∧
  ∃ lb, g.getLane? c.toLane = some lb ∧
    (outIntersection lane lb = true ∨ intoIntersection lane lb = true)

/-- Merge edge between lane ids. -/
def MergeEdge (g : LaneGraph) (x y : Nat) : Prop :=
  ∃ la, g.getLane? x = some la ∧ ∃ c ∈ la.contactLanes, c.toLane = y ∧ mergeContactShape g la c

/-- An edge the analysis follows in either way (merge or boundary). -/
def FollowedEdge (g : LaneGraph) (x y : Nat) : Prop :=
  ∃ la, g.getLane? x = some la ∧ ∃ c ∈ la.contactLanes, c.toLane = y ∧
    (mergeContactShape g la c ∨ boundaryContactShape g la c)

/-! ## Specification of one completed `__analyze_lane` call -/

/-- The bounding-box obligation for one member lane of an analysis state:
every geodetic boundary point of the lane found under the id lies between
the accumulated corners. -/
def boundOk (g : LaneGraph) (x : Nat) (st : LaneAnalysis) : Prop :=
  ∀ lx, g.getLane? x = some lx → ∀ p ∈ lx.leftEdgeGeo ++ lx.rightEdgeGeo,
    (∃ mn, st.min_pos = some mn ∧ geoLe mn p) ∧ (∃ mx, st.max_pos = some mx ∧ geoLe p mx)

/-- What a completed `__analyze_lane` call guarantees. -/
structure LaneCallSpec (g : LaneGraph) (laneID : Nat) (analyzed : List Nat) (r : LaneAnalysis) : Prop where
  analyzed_ext : ∃ app, r.analyzed_lane_ids = analyzed ++ app
  block_iff : ∀ x, x ∈ r.block_lane_ids ↔ (x ∈ r.analyzed_lane_ids ∧ x ∉ analyzed)
  self_mem : laneID ∈ r.block_lane_ids
  cover : ∀ x ∈ r.block_lane_ids, ∀ y, FollowedEdge g x y →
    y ∈ r.analyzed_lane_ids ∨ y ∈ r.to_analyze_lane_ids
  merge_closed : ∀ x ∈ r.block_lane_ids, ∀ y, MergeEdge g x y → y ∈ r.analyzed_lane_ids
  seed_conn : ∀ x ∈ r.block_lane_ids, Relation.ReflTransGen (MergeEdge g) laneID x
  bounds : ∀ x ∈ r.block_lane_ids, boundOk g x r

/-- What one step (or a run) of the contact loop preserves, relative to the
state it started from. -/
structure StepSpec (g : LaneGraph) (lane : Lane) (st st' : LaneAnalysis) : Prop where
  analyzed_ext : ∃ app, st'.analyzed_lane_ids = st.analyzed_lane_ids ++ app
  block_iff : ∀ x, x ∈ st'.block_lane_ids ↔
    (x ∈ st.block_lane_ids ∨ (x ∈ st'.analyzed_lane_ids ∧ x ∉ st.analyzed_lane_ids))
  open_mono : ∀ x ∈ st.to_analyze_lane_ids, x ∈ st'.to_analyze_lane_ids
  new_cover : ∀ x, x ∈ st'.block_lane_ids → x ∉ st.block_lane_ids →
    ∀ y, FollowedEdge g x y → y ∈ st'.analyzed_lane_ids ∨ y ∈ st'.to_analyze_lane_ids
  new_merge_closed : ∀ x, x ∈ st'.block_lane_ids → x ∉ st.block_lane_ids →
    ∀ y, MergeEdge g x y → y ∈ st'.analyzed_lane_ids
  conn : ∀ x ∈ st'.block_lane_ids, x ∈ st.block_lane_ids ∨
    Relation.ReflTransGen (MergeEdge g) lane.id x
  bounds : (∀ x ∈ st.block_lane_ids, boundOk g x st) → ∀ x ∈ st'.block_lane_ids, boundOk g x st'

theorem StepSpec.base (g : LaneGraph) (lane : Lane) (st : LaneAnalysis) : StepSpec g lane st st where
  analyzed_ext := ⟨[], (List.append_nil _).symm⟩
  block_iff := by
    intro x
    constructor
    · exact Or.inl
    · rintro (hx | ⟨h1, h2⟩)
      · exact hx
      · exact absurd h1 h2
  open_mono := fun x hx => hx
  new_cover := fun x hx hnx => absurd hx hnx
  new_merge_closed := fun x hx hnx => absurd hx hnx
  conn := fun x hx => Or.inl hx
  bounds := fun h => h

theorem StepSpec.comp {g : LaneGraph} {lane : Lane} {st st1 st' : LaneAnalysis}
    (h1 : StepSpec g lane st st1) (h2 : StepSpec g lane st1 st') : StepSpec g lane st st' where
  analyzed_ext := by
    rcases h1.analyzed_ext with ⟨a1, e1⟩
    rcases h2.analyzed_ext with ⟨a2, e2⟩
    exact ⟨a1 ++ a2, by rw [e2, e1, List.append_assoc]⟩
  block_iff := by
    rcases h1.analyzed_ext with ⟨a1, e1⟩
    rcases h2.analyzed_ext with ⟨a2, e2⟩
    intro x
    rw [h2.block_iff, h1.block_iff]
    constructor
    · rintro ((hx | ⟨hin, hout⟩) | ⟨hin, hout⟩)
      · exact Or.inl hx
      · refine Or.inr ⟨?_, hout⟩
        rw [e2]
        exact List.mem_append_left _ hin
      · refine Or.inr ⟨hin, ?_⟩
        intro hmem
        apply hout
        rw [e1]
        exact List.mem_append_left _ hmem
    · rintro (hx | ⟨hin, hout⟩)
      · exact Or.inl (Or.inl hx)
      · by_cases hmid : x ∈ st1.analyzed_lane_ids
        · exact Or.inl (Or.inr ⟨hmid, hout⟩)
        · exact Or.inr ⟨hin, hmid⟩
  open_mono := fun x hx => h2.open_mono x (h1.open_mono x hx)
  new_cover := by
    rcases h2.analyzed_ext with ⟨a2, e2⟩
    intro x hx hnx y hy
    by_cases hmid : x ∈ st1.block_lane_ids
    · rcases h1.new_cover x hmid hnx y hy with hc | hc
      · refine Or.inl ?_
        rw [e2]
        exact List.mem_append_left _ hc
      · exact Or.inr (h2.open_mono y hc)
    · exact h2.new_cover x hx hmid y hy
  new_merge_closed := by
    rcases h2.analyzed_ext with ⟨a2, e2⟩
    intro x hx hnx y hy
    by_cases hmid : x ∈ st1.block_lane_ids
    · have := h1.new_merge_closed x hmid hnx y hy
      rw [e2]
      exact List.mem_append_left _ this
    · exact h2.new_merge_closed x hx hmid y hy
  conn := by
    intro x hx
    rcases h2.conn x hx with hmid | hr
    · exact h1.conn x hmid
    · exact Or.inr hr
  bounds := fun h => h2.bounds (h1.bounds h)

theorem checkExisting_false_iff {t : Nat} {s : List Nat} :
    checkExistingLaneId t s = false ↔ t ∉ s := by
  simp [checkExistingLaneId]

/-- Recording a boundary lane only extends the open set. -/
theorem stepSpec_boundary (g : LaneGraph) (lane : Lane) (st : LaneAnalysis) (t : Nat) :
    StepSpec g lane st { st with to_analyze_lane_ids := addLaneId t st.to_analyze_lane_ids } where
  analyzed_ext := ⟨[], (List.append_nil _).symm⟩
  block_iff := by
    intro x
    constructor
    · exact Or.inl
    · rintro (hx | ⟨h1, h2⟩)
      · exact hx
      · exact absurd h1 h2
  open_mono := by
    intro x hx
    exact mem_addLaneId.mpr (Or.inr hx)
  new_cover := fun x hx hnx => absurd hx hnx
  new_merge_closed := fun x hx hnx => absurd hx hnx
  conn := fun x hx => Or.inl hx
  bounds := fun h => h

/-- Merging a recursively analyzed contact lane into the current state. -/
theorem stepSpec_merge {g : LaneGraph} {lane : Lane} {t : Nat} {st r : LaneAnalysis} (cv : Bool)
    (cs : LaneCallSpec g t st.analyzed_lane_ids r) (hedge : MergeEdge g lane.id t) :
    StepSpec g lane st
      { min_pos := calcMinGeoPoint st.min_pos r.min_pos
        max_pos := calcMaxGeoPoint st.max_pos r.max_pos
        curvature := cv
        block_lane_ids := addLaneIds r.block_lane_ids st.block_lane_ids
        to_analyze_lane_ids :=
          propagateOpenLanes r.to_analyze_lane_ids r.analyzed_lane_ids st.to_analyze_lane_ids
        analyzed_lane_ids := r.analyzed_lane_ids } where
  analyzed_ext := cs.analyzed_ext
  block_iff := by
    intro x
    show x ∈ addLaneIds r.block_lane_ids st.block_lane_ids ↔ _
    rw [mem_addLaneIds, cs.block_iff x]
    tauto
  open_mono := by
    intro x hx
    exact mem_propagateOpenLanes.mpr (Or.inr hx)
  new_cover := by
    intro x hx hnx y hy
    have hxr : x ∈ r.block_lane_ids := by
      rcases mem_addLaneIds.mp hx with h | h
      · exact h
      · exact absurd h hnx
    rcases cs.cover x hxr y hy with hc | hc
    · exact Or.inl hc
    · by_cases hya : y ∈ r.analyzed_lane_ids
      · exact Or.inl hya
      · exact Or.inr (mem_propagateOpenLanes.mpr (Or.inl ⟨hc, hya⟩))
  new_merge_closed := by
    intro x hx hnx y hy
    have hxr : x ∈ r.block_lane_ids := by
      rcases mem_addLaneIds.mp hx with h | h
      · exact h
      · exact absurd h hnx
    exact cs.merge_closed x hxr y hy
  conn := by
    intro x hx
    rcases mem_addLaneIds.mp hx with h | h
    · exact Or.inr (Relation.ReflTransGen.head hedge (cs.seed_conn x h))
    · exact Or.inl h
  bounds := by
    intro H x hx lx hlx p hp
    dsimp only at hx ⊢
    rcases mem_addLaneIds.mp hx with h | h
    · rcases cs.bounds x h lx hlx p hp with ⟨⟨mnr, hmnr, hle⟩, ⟨mxr, hmxr, hge⟩⟩
      constructor
      · rcases calcMinGeoPoint_some_right (b := mnr) st.min_pos with ⟨mn', heq, hle'⟩
        rw [hmnr]
        exact ⟨mn', heq, geoLe_trans hle' hle⟩
      · rcases calcMaxGeoPoint_some_right (b := mxr) st.max_pos with ⟨mx', heq, hge'⟩
        rw [hmxr]
        exact ⟨mx', heq, geoLe_trans hge hge'⟩
    · rcases H x h lx hlx p hp with ⟨⟨mns, hmns, hle⟩, ⟨mxs, hmxs, hge⟩⟩
      constructor
      · rcases calcMinGeoPoint_some_left (a := mns) r.min_pos with ⟨mn', heq, hle'⟩
        rw [hmns]
        exact ⟨mn', heq, geoLe_trans hle' hle⟩
      · rcases calcMaxGeoPoint_some_left (a := mxs) r.max_pos with ⟨mx', heq, hge'⟩
        rw [hmxs]
        exact ⟨mx', heq, geoLe_trans hge hge'⟩

/-- What the contact loop guarantees for an individual contact it has
processed. -/
def contactHandled (g : LaneGraph) (lane : Lane) (c : ContactLane) (st' : LaneAnalysis) : Prop :=
  (boundaryContactShape g lane c →
    c.toLane ∈ st'.analyzed_lane_ids ∨ c.toLane ∈ st'.to_analyze_lane_ids) ∧
  (mergeContactShape g lane c → c.toLane ∈ st'.analyzed_lane_ids)

theorem analyzeContacts_spec (g : LaneGraph) (recAnalyze : Nat → List Nat → Option LaneAnalysis)
    (hrec : ∀ t analyzed r, recAnalyze t analyzed = some r → t ∉ analyzed →
      LaneCallSpec g t analyzed r)
    (lane : Lane) (hlane : g.getLane? lane.id = some lane) :
    ∀ (contacts : List ContactLane) (st st' : LaneAnalysis),
      analyzeContacts g recAnalyze lane contacts st = some st' →
      (∀ c ∈ contacts, c ∈ lane.contactLanes) →
      StepSpec g lane st st' ∧ ∀ c ∈ contacts, contactHandled g lane c st' := by
  intro contacts
  induction contacts with
  | nil =>
    intro st st' h _
    simp only [analyzeContacts, Option.some.injEq] at h
    subst h
    exact ⟨StepSpec.base g lane st, by intro c hc; cases hc⟩
  | cons c rest ih =>
    intro st st' h hsub
    have hcmem : c ∈ lane.contactLanes := hsub c (List.mem_cons_self c rest)
    have hsubrest : ∀ c' ∈ rest, c' ∈ lane.contactLanes :=
      fun c' hc' => hsub c' (List.mem_cons_of_mem c hc')
    simp only [analyzeContacts] at h
    split at h
    · -- contact already analyzed: skipped
      rename_i hchk
      rcases ih st st' h hsubrest with ⟨spec, handled⟩
      have hmem : c.toLane ∈ st.analyzed_lane_ids := by
        simpa [checkExistingLaneId] using hchk
      refine ⟨spec, ?_⟩
      intro c' hc'
      rcases List.mem_cons.mp hc' with rfl | hc'
      · have hfin : c'.toLane ∈ st'.analyzed_lane_ids := by
          rcases spec.analyzed_ext with ⟨app, happ⟩
          rw [happ]
          exact List.mem_append_left _ hmem
        exact ⟨fun _ => Or.inl hfin, fun _ => hfin⟩
      · exact handled c' hc'
    · rename_i hchk
      have hnot : c.toLane ∉ st.analyzed_lane_ids := by
        simpa [checkExistingLaneId] using hchk
      split at h
      · -- successor / predecessor contact
        rename_i hloc
        split at h
        · -- carries LANE_CONTINUATION
          rename_i hcont
          split at h
          · exact absurd h (by simp)
          · rename_i clane_obj heq
            split at h
            · -- intersection boundary crossing: boundary lane
              rename_i hcross
              rcases ih _ st' h hsubrest with ⟨tailspec, handled⟩
              have spec := (stepSpec_boundary g lane st c.toLane).comp tailspec
              refine ⟨spec, ?_⟩
              intro c' hc'
              rcases List.mem_cons.mp hc' with rfl | hc'
              · constructor
                · intro _
                  refine Or.inr (tailspec.open_mono c'.toLane ?_)
                  exact mem_addLaneId.mpr (Or.inl rfl)
                · intro hms
                  exfalso
                  rcases hms with hlro | ⟨_, _, _, lb', hlb', hout, hinto⟩
                  · rcases hloc with h1 | h1 <;>
                      rcases hlro with h2 | h2 | h2 <;> rw [h1] at h2 <;> simp at h2
                  · rw [heq] at hlb'
                    injection hlb' with e
                    subst e
                    rcases Bool.or_eq_true_iff.mp hcross with ho | ho
                    · rw [ho] at hout; cases hout
                    · rw [ho] at hinto; cases hinto
              · exact handled c' hc'
            · -- same-road continuation: merge recursively
              rename_i hcross
              split at h
              · rename_i htype
                split at h
                · exact absurd h (by simp)
                · rename_i r hreq
                  have cs := hrec _ _ _ hreq hnot
                  rcases Bool.or_eq_false_iff.mp (Bool.not_eq_true _ ▸ hcross) with ⟨hout, hinto⟩
                  have hedge : MergeEdge g lane.id c.toLane :=
                    ⟨lane, hlane, c, hcmem, rfl,
                      Or.inr ⟨hloc, hcont, htype, clane_obj, heq, hout, hinto⟩⟩
                  rcases ih _ st' h hsubrest with ⟨tailspec, handled⟩
                  have spec := (stepSpec_merge st.curvature cs hedge).comp tailspec
                  refine ⟨spec, ?_⟩
                  intro c' hc'
                  rcases List.mem_cons.mp hc' with rfl | hc'
                  · have hself : c'.toLane ∈ r.analyzed_lane_ids :=
                      ((cs.block_iff c'.toLane).mp cs.self_mem).1
                    have hfin : c'.toLane ∈ st'.analyzed_lane_ids := by
                      rcases tailspec.analyzed_ext with ⟨app, happ⟩
                      rw [happ]
                      exact List.mem_append_left _ hself
                    exact ⟨fun _ => Or.inl hfin, fun _ => hfin⟩
                  · exact handled c' hc'
              · -- relation ignored: lane type not a continuation type
                rename_i htype
                rcases ih st st' h hsubrest with ⟨spec, handled⟩
                refine ⟨spec, ?_⟩
                intro c' hc'
                rcases List.mem_cons.mp hc' with rfl | hc'
                · constructor
                  · rintro ⟨_, _, lb', hlb', hcr⟩
                    exfalso
                    rw [heq] at hlb'
                    injection hlb' with e
                    subst e
                    have hcf := Bool.not_eq_true _ ▸ hcross
                    rcases Bool.or_eq_false_iff.mp hcf with ⟨hout, hinto⟩
                    rcases hcr with ho | ho
                    · rw [ho] at hout; cases hout
                    · rw [ho] at hinto; cases hinto
                  · rintro (hlro | ⟨_, _, ht, _⟩)
                    · exfalso
                      rcases hloc with h1 | h1 <;>
                        rcases hlro with h2 | h2 | h2 <;> rw [h1] at h2 <;> simp at h2
                    · exact absurd ht htype
                · exact handled c' hc'
        · -- no LANE_CONTINUATION: nothing happens
          rename_i hcont
          rcases ih st st' h hsubrest with ⟨spec, handled⟩
          refine ⟨spec, ?_⟩
          intro c' hc'
          rcases List.mem_cons.mp hc' with rfl | hc'
          · constructor
            · rintro ⟨_, ht, _⟩
              exact absurd ht hcont
            · rintro (hlro | ⟨_, ht, _⟩)
              · exfalso
                rcases hloc with h1 | h1 <;>
                  rcases hlro with h2 | h2 | h2 <;> rw [h1] at h2 <;> simp at h2
              · exact absurd ht hcont
          · exact handled c' hc'
      · -- not successor/predecessor
        rename_i hloc
        split at h
        · -- left / right / overlap: merge recursively
          rename_i hlro
          split at h
          · exact absurd h (by simp)
          · rename_i r hreq
            have cs := hrec _ _ _ hreq hnot
            have hedge : MergeEdge g lane.id c.toLane :=
              ⟨lane, hlane, c, hcmem, rfl, Or.inl hlro⟩
            rcases ih _ st' h hsubrest with ⟨tailspec, handled⟩
            have spec := (stepSpec_merge (st.curvature || r.curvature) cs hedge).comp tailspec
            refine ⟨spec, ?_⟩
            intro c' hc'
            rcases List.mem_cons.mp hc' with rfl | hc'
            · have hself : c'.toLane ∈ r.analyzed_lane_ids :=
                ((cs.block_iff c'.toLane).mp cs.self_mem).1
              have hfin : c'.toLane ∈ st'.analyzed_lane_ids := by
                rcases tailspec.analyzed_ext with ⟨app, happ⟩
                rw [happ]
                exact List.mem_append_left _ hself
              exact ⟨fun _ => Or.inl hfin, fun _ => hfin⟩
            · exact handled c' hc'
        · -- any other contact location: ignored
          rename_i hlro
          rcases ih st st' h hsubrest with ⟨spec, handled⟩
          refine ⟨spec, ?_⟩
          intro c' hc'
          rcases List.mem_cons.mp hc' with rfl | hc'
          · constructor
            · rintro ⟨hl, _⟩
              exact absurd hl hloc
            · rintro (hl | ⟨hl, _⟩)
              · exact absurd hl hlro
              · exact absurd hl hloc
          · exact handled c' hc'

theorem addLaneId_not_mem {i : Nat} {s : List Nat} (h : i ∉ s) : addLaneId i s = s ++ [i] := by
  simp [addLaneId, h]

theorem calculateEdgeMin_some_of_mem {pts : List GeoLocation} {p : GeoLocation} (hp : p ∈ pts) :
    ∃ m, calculateEdgeMin pts = some m ∧ geoLe m p := by
  match pts, hp with
  | x :: rest, hp =>
    exact ⟨_, rfl, foldl_edgeMinStep_le (x :: rest) getMaxGeoPointConst hp⟩

theorem calculateEdgeMax_some_of_mem {pts : List GeoLocation} {p : GeoLocation} (hp : p ∈ pts) :
    ∃ m, calculateEdgeMax pts = some m ∧ geoLe p m := by
  match pts, hp with
  | x :: rest, hp =>
    exact ⟨_, rfl, foldl_edgeMaxStep_ge (x :: rest) getMinGeoPointConst hp⟩

theorem getLane?_id {g : LaneGraph} {laneID : Nat} {lane : Lane}
    (h : g.getLane? laneID = some lane) : lane.id = laneID := by
  simp only [LaneGraph.getLane?] at h
  have := List.find?_some h
  simpa using this

/-- The main induction: every completed `__analyze_lane` call satisfies
`LaneCallSpec`. -/
theorem analyzeLane_spec (g : LaneGraph) :
    ∀ (fuel laneID : Nat) (analyzed : List Nat) (r : LaneAnalysis),
      analyzeLane g fuel laneID analyzed = some r → laneID ∉ analyzed →
      LaneCallSpec g laneID analyzed r := by
  intro fuel
  induction fuel with
  | zero =>
    intro laneID analyzed r h _
    simp [analyzeLane] at h
  | succ f ih =>
    intro laneID analyzed r h hnot
    simp only [analyzeLane] at h
    split at h
    · exact absurd h (by simp)
    · rename_i lane hlk
      have hid : lane.id = laneID := getLane?_id hlk
      have hlane : g.getLane? lane.id = some lane := by rw [hid]; exact hlk
      rcases analyzeContacts_spec g (analyzeLane g f) ih lane hlane lane.contactLanes _ r h
          (fun c hc => hc) with ⟨spec, handled⟩
      have hlaneID_st0 : laneID ∈ addLaneId laneID analyzed := mem_addLaneId.mpr (Or.inl rfl)
      have hst0_analyzed : addLaneId laneID analyzed = analyzed ++ [laneID] := addLaneId_not_mem hnot
      rcases spec.analyzed_ext with ⟨app, happ⟩
      have hlaneID_r : laneID ∈ r.analyzed_lane_ids := by
        rw [happ]
        exact List.mem_append_left _ hlaneID_st0
      have hst0_block_iff : ∀ x : Nat, x ∈ addLaneId laneID ([] : List Nat) ↔ x = laneID := by
        intro x
        rw [mem_addLaneId]
        simp
      have hblock_iff : ∀ x, x ∈ r.block_lane_ids ↔
          (x ∈ r.analyzed_lane_ids ∧ x ∉ analyzed) := by
        intro x
        rw [spec.block_iff x]
        constructor
        · rintro (hx | ⟨h1, h2⟩)
          · rcases (hst0_block_iff x).mp hx with rfl
            exact ⟨hlaneID_r, hnot⟩
          · refine ⟨h1, fun hm => h2 ?_⟩
            exact mem_addLaneId.mpr (Or.inr hm)
        · rintro ⟨h1, h2⟩
          by_cases hx : x = laneID
          · exact Or.inl ((hst0_block_iff x).mpr hx)
          · refine Or.inr ⟨h1, fun hm => ?_⟩
            rcases mem_addLaneId.mp hm with h3 | h3
            · exact hx h3
            · exact h2 h3
      have hself : laneID ∈ r.block_lane_ids :=
        (spec.block_iff laneID).mpr (Or.inl ((hst0_block_iff laneID).mpr rfl))
      refine ⟨?_, hblock_iff, hself, ?_, ?_, ?_, ?_⟩
      · exact ⟨[laneID] ++ app, by rw [happ, hst0_analyzed, List.append_assoc]⟩
      · -- cover
        intro x hx y hy
        rcases (spec.block_iff x).mp hx with hx0 | ⟨h1, h2⟩
        · rcases (hst0_block_iff x).mp hx0 with rfl
          rcases hy with ⟨la, hla, cc, hccm, hto, hshape⟩
          have hle : la = lane := by
            rw [hlk] at hla
            exact (Option.some.inj hla).symm
          subst hle
          subst hto
          rcases hshape with hm | hb
          · exact Or.inl ((handled cc hccm).2 hm)
          · exact (handled cc hccm).1 hb
        · have hnb : x ∉ addLaneId laneID ([] : List Nat) := by
            intro hmem
            rcases (hst0_block_iff x).mp hmem with rfl
            exact h2 hlaneID_st0
          exact spec.new_cover x hx hnb y hy
      · -- merge closed
        intro x hx y hy
        rcases (spec.block_iff x).mp hx with hx0 | ⟨h1, h2⟩
        · rcases (hst0_block_iff x).mp hx0 with rfl
          rcases hy with ⟨la, hla, cc, hccm, hto, hshape⟩
          have hle : la = lane := by
            rw [hlk] at hla
            exact (Option.some.inj hla).symm
          subst hle
          subst hto
          exact (handled cc hccm).2 hshape
        · have hnb : x ∉ addLaneId laneID ([] : List Nat) := by
            intro hmem
            rcases (hst0_block_iff x).mp hmem with rfl
            exact h2 hlaneID_st0
          exact spec.new_merge_closed x hx hnb y hy
      · -- seed connectivity
        intro x hx
        rcases spec.conn x hx with hx0 | hr
        · rcases (hst0_block_iff x).mp hx0 with rfl
          exact Relation.ReflTransGen.refl
        · rw [hid] at hr
          exact hr
      · -- bounds
        refine spec.bounds ?_
        intro x hx lx hlx p hp
        rcases (hst0_block_iff x).mp hx with rfl
        have hlxe : lx = lane := by
          rw [hid] at hlane
          rw [hlane] at hlx
          exact (Option.some.inj hlx).symm
        subst hlxe
        dsimp only [calcBoundingPoints]
        constructor
        · rcases calculateEdgeMin_some_of_mem hp with ⟨m, hm, hle⟩
          exact ⟨m, hm, hle⟩
        · rcases calculateEdgeMax_some_of_mem hp with ⟨m, hm, hge⟩
          exact ⟨m, hm, hge⟩

/-! ## The `__analyze_map` loop invariant -/

/-- Invariant of the `while lanes_to_analyze` loop of `__analyze_map`. -/
structure LoopInv (g : LaneGraph) (toAnalyze analyzed : List Nat)
    (segments : List ScenarioSegment) : Prop where
  frontier_fresh : ∀ x ∈ toAnalyze, x ∉ analyzed
  analyzed_in_seg : ∀ x ∈ analyzed, ∃ seg ∈ segments, natStr x ∈ seg.lanes
  seg_sub_analyzed : ∀ seg ∈ segments, ∀ s ∈ seg.lanes, ∃ x ∈ analyzed, natStr x = s
  seg_disjoint : segments.Pairwise (fun s t => ∀ a ∈ s.lanes, a ∉ t.lanes)
  closure : ∀ x ∈ analyzed, ∀ y, FollowedEdge g x y → y ∈ analyzed ∨ y ∈ toAnalyze
  mutual_pair : ∀ a b, MergeEdge g a b → MergeEdge g b a → a ∈ analyzed →
    b ∈ analyzed ∧ ∀ seg ∈ segments, natStr a ∈ seg.lanes → natStr b ∈ seg.lanes
  seg_conn : ∀ seg ∈ segments, ∃ z, natStr z ∈ seg.lanes ∧
    ∀ x, natStr x ∈ seg.lanes → Relation.ReflTransGen (MergeEdge g) z x
  seg_bounds : ∀ seg ∈ segments, ∀ s ∈ seg.lanes, ∀ x, natStr x = s →
    ∀ lx, g.getLane? x = some lx → ∀ p ∈ lx.leftEdgeGeo ++ lx.rightEdgeGeo,
      geoLe seg.lower_bound p ∧ geoLe p seg.higher_bound

theorem loopInv_init (g : LaneGraph) (toAnalyze : List Nat) : LoopInv g toAnalyze [] [] where
  frontier_fresh := fun x _ => List.not_mem_nil x
  analyzed_in_seg := fun x hx => absurd hx (List.not_mem_nil x)
  seg_sub_analyzed := fun seg hseg => absurd hseg (List.not_mem_nil seg)
  seg_disjoint := List.Pairwise.nil
  closure := fun x hx => absurd hx (List.not_mem_nil x)
  mutual_pair := fun a _ _ _ ha => absurd ha (List.not_mem_nil a)
  seg_conn := fun seg hseg => absurd hseg (List.not_mem_nil seg)
  seg_bounds := fun seg hseg => absurd hseg (List.not_mem_nil seg)

theorem analyzeMapLoop_spec (g : LaneGraph) :
    ∀ (fuel : Nat) (toAnalyze analyzed : List Nat) (segments segs : List ScenarioSegment),
      analyzeMapLoop g fuel toAnalyze analyzed segments = some segs →
      LoopInv g toAnalyze analyzed segments →
      ∃ analyzedF, LoopInv g [] analyzedF segs ∧
        (∀ x, (x ∈ analyzed ∨ x ∈ toAnalyze) → x ∈ analyzedF) := by
  intro fuel
  induction fuel with
  | zero =>
    intro toAnalyze analyzed segments segs h inv
    match toAnalyze, inv, h with
    | [], inv, h =>
      have hseg : segments = segs := by simpa [analyzeMapLoop] using h
      subst hseg
      refine ⟨analyzed, inv, ?_⟩
      rintro x (hx | hx)
      · exact hx
      · cases hx
  | succ f ih =>
    intro toAnalyze analyzed segments segs h inv
    match toAnalyze, inv, h with
    | [], inv, h =>
      have hseg : segments = segs := by simpa [analyzeMapLoop] using h
      subst hseg
      refine ⟨analyzed, inv, ?_⟩
      rintro x (hx | hx)
      · exact hx
      · cases hx
    | lane_id :: rest, inv, h =>
      simp only [analyzeMapLoop] at h
      split at h
      · exact absurd h (by simp)
      · rename_i r hrl
        split at h
        · rename_i mn mx hmn hmx
          have hfresh : lane_id ∉ analyzed :=
            inv.frontier_fresh lane_id (List.mem_cons_self lane_id rest)
          have cs := analyzeLane_spec g _ lane_id analyzed r hrl hfresh
          rcases cs.analyzed_ext with ⟨app, happ⟩
          have hsubA : ∀ x ∈ analyzed, x ∈ r.analyzed_lane_ids := by
            intro x hx
            rw [happ]
            exact List.mem_append_left _ hx
          have hselfA : lane_id ∈ r.analyzed_lane_ids :=
            ((cs.block_iff lane_id).mp cs.self_mem).1
          -- the new segment and the new frontier
          set newSeg := mkScenarioSegment mn mx r.curvature (r.block_lane_ids.map natStr) with hnewSeg
          have hlanesSeg : newSeg.lanes = r.block_lane_ids.map natStr := rfl
          have hlower : newSeg.lower_bound = mn := rfl
          have hhigher : newSeg.higher_bound = mx := rfl
          have hmem_newSeg : ∀ x : Nat, natStr x ∈ newSeg.lanes ↔ x ∈ r.block_lane_ids := by
            intro x
            rw [hlanesSeg]
            constructor
            · intro hx
              rcases List.mem_map.mp hx with ⟨x', hx', he⟩
              rcases natStr_inj x' x he with rfl
              exact hx'
            · intro hx
              exact List.mem_map_of_mem natStr hx
          have inv' : LoopInv g
              (reduceLaneIdSet (addLaneIds r.to_analyze_lane_ids rest) r.analyzed_lane_ids)
              r.analyzed_lane_ids (segments ++ [newSeg]) := by
            constructor
            · -- frontier_fresh
              intro x hx
              exact (mem_reduceLaneIdSet.mp hx).2
            · -- analyzed_in_seg
              intro x hx
              by_cases hA : x ∈ analyzed
              · rcases inv.analyzed_in_seg x hA with ⟨seg, hs, hm⟩
                exact ⟨seg, List.mem_append_left _ hs, hm⟩
              · have hb : x ∈ r.block_lane_ids := (cs.block_iff x).mpr ⟨hx, hA⟩
                refine ⟨newSeg, List.mem_append_right _ (List.mem_singleton_self _), ?_⟩
                exact (hmem_newSeg x).mpr hb
            · -- seg_sub_analyzed
              intro seg hseg s hs
              rcases List.mem_append.mp hseg with hold | hnew
              · rcases inv.seg_sub_analyzed seg hold s hs with ⟨x, hxA, he⟩
                exact ⟨x, hsubA x hxA, he⟩
              · rcases List.mem_singleton.mp hnew with rfl
                rw [hlanesSeg] at hs
                rcases List.mem_map.mp hs with ⟨x, hx, he⟩
                exact ⟨x, ((cs.block_iff x).mp hx).1, he⟩
            · -- seg_disjoint
              rw [List.pairwise_append]
              refine ⟨inv.seg_disjoint, List.pairwise_singleton _ _, ?_⟩
              intro s hsold t htnew a ha
              rcases List.mem_singleton.mp htnew with rfl
              intro hanew
              rw [hlanesSeg] at hanew
              rcases List.mem_map.mp hanew with ⟨x, hxb, he⟩
              rcases inv.seg_sub_analyzed s hsold a ha with ⟨x', hx'A, he'⟩
              have hxx : x' = x := natStr_inj x' x (by rw [he', he])
              rw [hxx] at hx'A
              exact ((cs.block_iff x).mp hxb).2 hx'A
            · -- closure
              intro x hx y hy
              by_cases hA : x ∈ analyzed
              · rcases inv.closure x hA y hy with hyA | hyT
                · exact Or.inl (hsubA y hyA)
                · rcases List.mem_cons.mp hyT with rfl | hyR
                  · exact Or.inl hselfA
                  · by_cases hyA' : y ∈ r.analyzed_lane_ids
                    · exact Or.inl hyA'
                    · refine Or.inr (mem_reduceLaneIdSet.mpr ⟨?_, hyA'⟩)
                      exact mem_addLaneIds.mpr (Or.inr hyR)
              · have hb : x ∈ r.block_lane_ids := (cs.block_iff x).mpr ⟨hx, hA⟩
                rcases cs.cover x hb y hy with hyA' | hyO
                · exact Or.inl hyA'
                · by_cases hyA' : y ∈ r.analyzed_lane_ids
                  · exact Or.inl hyA'
                  · refine Or.inr (mem_reduceLaneIdSet.mpr ⟨?_, hyA'⟩)
                    exact mem_addLaneIds.mpr (Or.inl hyO)
            · -- mutual_pair
              intro a b hab hba haA'
              by_cases haA : a ∈ analyzed
              · rcases inv.mutual_pair a b hab hba haA with ⟨hbA, hsegs⟩
                refine ⟨hsubA b hbA, ?_⟩
                intro seg hseg hamem
                rcases List.mem_append.mp hseg with hold | hnew
                · exact hsegs seg hold hamem
                · rcases List.mem_singleton.mp hnew with rfl
                  exfalso
                  have hb : a ∈ r.block_lane_ids := (hmem_newSeg a).mp hamem
                  exact ((cs.block_iff a).mp hb).2 haA
              · have hablock : a ∈ r.block_lane_ids := (cs.block_iff a).mpr ⟨haA', haA⟩
                have hbA' : b ∈ r.analyzed_lane_ids := cs.merge_closed a hablock b hab
                have hbnotA : b ∉ analyzed := by
                  intro hbA
                  exact haA (inv.mutual_pair b a hba hab hbA).1
                have hbblock : b ∈ r.block_lane_ids := (cs.block_iff b).mpr ⟨hbA', hbnotA⟩
                refine ⟨hbA', ?_⟩
                intro seg hseg hamem
                rcases List.mem_append.mp hseg with hold | hnew
                · exfalso
                  rcases inv.seg_sub_analyzed seg hold _ hamem with ⟨x', hx'A, he'⟩
                  rcases natStr_inj x' a he' with rfl
                  exact haA hx'A
                · rcases List.mem_singleton.mp hnew with rfl
                  exact (hmem_newSeg b).mpr hbblock
            · -- seg_conn
              intro seg hseg
              rcases List.mem_append.mp hseg with hold | hnew
              · exact inv.seg_conn seg hold
              · rcases List.mem_singleton.mp hnew with rfl
                refine ⟨lane_id, (hmem_newSeg lane_id).mpr cs.self_mem, ?_⟩
                intro x hx
                exact cs.seed_conn x ((hmem_newSeg x).mp hx)
            · -- seg_bounds
              intro seg hseg s hs x hxs lx hlx p hp
              rcases List.mem_append.mp hseg with hold | hnew
              · exact inv.seg_bounds seg hold s hs x hxs lx hlx p hp
              · rcases List.mem_singleton.mp hnew with rfl
                have hxb : x ∈ r.block_lane_ids := by
                  refine (hmem_newSeg x).mp ?_
                  rw [hxs]
                  exact hs
                rcases cs.bounds x hxb lx hlx p hp with ⟨⟨mn', hmn', hle⟩, ⟨mx', hmx', hge⟩⟩
                rw [hmn] at hmn'
                rw [hmx] at hmx'
                injection hmn' with e1
                injection hmx' with e2
                subst e1
                subst e2
                rw [hlower, hhigher]
                exact ⟨hle, hge⟩
          rcases ih _ _ _ segs h inv' with ⟨aF, invF, hcov⟩
          refine ⟨aF, invF, ?_⟩
          rintro x (hx | hx)
          · exact hcov x (Or.inl (hsubA x hx))
          · rcases List.mem_cons.mp hx with rfl | hxR
            · exact hcov x (Or.inl hselfA)
            · by_cases hxA' : x ∈ r.analyzed_lane_ids
              · exact hcov x (Or.inl hxA')
              · refine hcov x (Or.inr (mem_reduceLaneIdSet.mpr ⟨?_, hxA'⟩))
                exact mem_addLaneIds.mpr (Or.inr hxR)
        · exact absurd h (by simp)

theorem analyzeMap_spec (g : LaneGraph) (segs : List ScenarioSegment)
    (h : analyzeMap g = some segs) :
    ∃ s0 restIds analyzedF, g.ids = s0 :: restIds ∧ LoopInv g [] analyzedF segs ∧
      s0 ∈ analyzedF := by
  unfold analyzeMap at h
  split at h
  · exact absurd h (by simp)
  · rename_i s0 restIds hids
    rcases analyzeMapLoop_spec g _ _ _ _ _ h (loopInv_init g [s0]) with ⟨aF, invF, hcov⟩
    exact ⟨s0, restIds, aF, hids, invF, hcov s0 (Or.inr (List.mem_cons_self _ _))⟩

/-! ## Claim C5 -/

/-- C5: after `__analyze_map`, every lane id reachable from the seed lane
(the first id of `getLanes()`) along followed contact relations appears in
the member lane list of some emitted Segment, and no lane id string occurs
in the member lists of two distinct Segments. -/
theorem analyze_map_partition (g : LaneGraph) (segs : List ScenarioSegment) (s0 : Nat)
    (restIds : List Nat) (hids : g.ids = s0 :: restIds) (h : analyzeMap g = some segs) :
    (∀ x, Relation.ReflTransGen (FollowedEdge g) s0 x → ∃ seg ∈ segs, natStr x ∈ seg.lanes) ∧
    segs.Pairwise (fun s t => ∀ a ∈ s.lanes, a ∉ t.lanes) := by
  rcases analyzeMap_spec g segs h with ⟨s0', restIds', aF, hids', invF, hs0⟩
  have hseed : s0' = s0 := by
    rw [hids] at hids'
    exact (List.cons.injEq _ _ _ _ ▸ hids').1.symm ▸ rfl
  have hreach : ∀ x, Relation.ReflTransGen (FollowedEdge g) s0 x → x ∈ aF := by
    intro x hx
    rw [← hseed] at hx
    induction hx with
    | refl => exact hs0
    | tail _ hbc ihb =>
      rcases invF.closure _ ihb _ hbc with hc | hc
      · exact hc
      · cases hc
  exact ⟨fun x hx => invF.analyzed_in_seg x (hreach x hx), invF.seg_disjoint⟩

/-! ## Claim C6 -/

/-- C6: for every Segment produced by the map analysis and every lane in
its member set, every geodetic point of that lane's boundary edges lies
within the Segment's box, componentwise on latitude, longitude and
altitude. -/
theorem analyze_map_containment (g : LaneGraph) (segs : List ScenarioSegment)
    (h : analyzeMap g = some segs) :
    ∀ seg ∈ segs, ∀ (x : Nat) (lx : Lane), natStr x ∈ seg.lanes → g.getLane? x = some lx →
      ∀ p ∈ lx.leftEdgeGeo ++ lx.rightEdgeGeo,
        geoLe seg.lower_bound p ∧ geoLe p seg.higher_bound := by
  rcases analyzeMap_spec g segs h with ⟨s0, restIds, aF, hids, invF, hs0⟩
  intro seg hseg x lx hx hlx p hp
  exact invF.seg_bounds seg hseg (natStr x) hx x rfl lx hlx p hp

/-! ## Claim C4 -/

/-- Single-point geodetic edge used by the small counterexample graphs. -/
def cexEdge : List GeoLocation := [⟨0, 0, 0⟩]

/-- Graph 1: intersection lane 1 has a Successor LANE_CONTINUATION contact
to normal lane 2 and additionally an Overlap contact to it. -/
def cexLaneA : Lane :=
  ⟨1, .INTERSECTION, cexEdge, cexEdge, false,
    [⟨2, .SUCCESSOR, [.LANE_CONTINUATION]⟩, ⟨2, .OVERLAP, [.LANE_CHANGE]⟩]⟩

def cexLaneB : Lane := ⟨2, .NORMAL, cexEdge, cexEdge, false, []⟩

def cexG1 : LaneGraph := ⟨[cexLaneA, cexLaneB]⟩

/-- Graph 2: intersection lane 1 overlaps normal lane 2 and has a boundary
continuation to normal lane 3; lane 3 has a Successor LANE_CONTINUATION
contact to lane 2, but lane 2 has none back. -/
def cexLaneS : Lane :=
  ⟨1, .INTERSECTION, cexEdge, cexEdge, false,
    [⟨3, .SUCCESSOR, [.LANE_CONTINUATION]⟩, ⟨2, .OVERLAP, [.LANE_CHANGE]⟩]⟩

def cexLaneM : Lane := ⟨2, .NORMAL, cexEdge, cexEdge, false, []⟩

def cexLaneL : Lane := ⟨3, .NORMAL, cexEdge, cexEdge, false, [⟨2, .SUCCESSOR, [.LANE_CONTINUATION]⟩]⟩

def cexG2 : LaneGraph := ⟨[cexLaneS, cexLaneM, cexLaneL]⟩

/-- C4 counterexample.  On graph 1 the analysis puts the INTERSECTION lane
1 and the NORMAL lane 2 — connected by a Successor LANE_CONTINUATION
relation — into the same (single) Segment, because the Overlap contact
merges them.  On graph 2 the NORMAL lanes 3 and 2, connected by a
Successor LANE_CONTINUATION relation from 3 to 2, end up in different
Segments, because lane 2 was already merged into lane 1's block before
lane 3 was analyzed. -/
theorem intersection_boundary_rule_cex :
    ((analyzeMap cexG1).map (fun segs => segs.map ScenarioSegment.lanes) = some [["1", "2"]] ∧
      cexLaneA.type = LaneType.INTERSECTION ∧ cexLaneB.type = LaneType.NORMAL ∧
      (∃ c ∈ cexLaneA.contactLanes, c.toLane = 2 ∧ c.location = ContactLocation.SUCCESSOR ∧
        ContactType.LANE_CONTINUATION ∈ c.types)) ∧
    ((analyzeMap cexG2).map (fun segs => segs.map ScenarioSegment.lanes) =
        some [["1", "2"], ["3"]] ∧
      cexLaneL.type = LaneType.NORMAL ∧ cexLaneM.type = LaneType.NORMAL ∧
      (∃ c ∈ cexLaneL.contactLanes, c.toLane = 2 ∧ c.location = ContactLocation.SUCCESSOR ∧
        ContactType.LANE_CONTINUATION ∈ c.types)) := by
  with_unfolding_all decide

/-- C4 (amended): (1) every Segment's members are merge-connected — all of
them reachable from the Segment's seed lane through Left/Right/Overlap or
non-boundary continuation relations only, so a boundary-crossing
Successor/Predecessor continuation is never itself merged through, and an
INTERSECTION/NORMAL pair shares a Segment only when other merge relations
join them; (2) two lanes related by merge relations in both directions
always share every Segment either belongs to; (3) in particular two NORMAL
lanes listing each other as Successor/Predecessor LANE_CONTINUATION
contacts end up in the same Segment whenever either is analyzed. -/
theorem intersection_boundary_rule_amended (g : LaneGraph) (segs : List ScenarioSegment)
    (h : analyzeMap g = some segs) :
    (∀ seg ∈ segs, ∃ z, natStr z ∈ seg.lanes ∧
       ∀ x, natStr x ∈ seg.lanes → Relation.ReflTransGen (MergeEdge g) z x) ∧
    (∀ a b : Nat, MergeEdge g a b → MergeEdge g b a →
       ∀ seg ∈ segs, natStr a ∈ seg.lanes → natStr b ∈ seg.lanes) ∧
    (∀ (la lb : Lane), g.getLane? la.id = some la → g.getLane? lb.id = some lb →
       la.type = LaneType.NORMAL → lb.type = LaneType.NORMAL →
       (∃ c ∈ la.contactLanes, c.toLane = lb.id ∧
         (c.location = ContactLocation.SUCCESSOR ∨ c.location = ContactLocation.PREDECESSOR) ∧
         ContactType.LANE_CONTINUATION ∈ c.types) →
       (∃ c ∈ lb.contactLanes, c.toLane = la.id ∧
         (c.location = ContactLocation.SUCCESSOR ∨ c.location = ContactLocation.PREDECESSOR) ∧
         ContactType.LANE_CONTINUATION ∈ c.types) →
       ∀ seg ∈ segs, natStr la.id ∈ seg.lanes → natStr lb.id ∈ seg.lanes) := by
  rcases analyzeMap_spec g segs h with ⟨s0, restIds, aF, hids, invF, hs0⟩
  have hpair : ∀ a b : Nat, MergeEdge g a b → MergeEdge g b a →
      ∀ seg ∈ segs, natStr a ∈ seg.lanes → natStr b ∈ seg.lanes := by
    intro a b hab hba seg hseg hamem
    rcases invF.seg_sub_analyzed seg hseg _ hamem with ⟨x', hx'A, he'⟩
    rcases natStr_inj x' a he' with rfl
    exact (invF.mutual_pair x' b hab hba hx'A).2 seg hseg hamem
  refine ⟨invF.seg_conn, hpair, ?_⟩
  intro la lb hla hlb hNa hNb ⟨ca, hcam, hcato, hcaloc, hcat⟩ ⟨cb, hcbm, hcbto, hcbloc, hcbt⟩
  have houta : outIntersection la lb = false := by
    simp [outIntersection, hNa]
  have hintoa : intoIntersection la lb = false := by
    simp [intoIntersection, hNb]
  have houtb : outIntersection lb la = false := by
    simp [outIntersection, hNb]
  have hintob : intoIntersection lb la = false := by
    simp [intoIntersection, hNa]
  have hta : la.type ∈ CONTINUATION_TYPES := by
    rw [hNa]
    decide
  have htb : lb.type ∈ CONTINUATION_TYPES := by
    rw [hNb]
    decide
  have hab : MergeEdge g la.id lb.id :=
    ⟨la, hla, ca, hcam, hcato, Or.inr ⟨hcaloc, hcat, hta, lb, hcato ▸ hlb, houta, hintoa⟩⟩
  have hba : MergeEdge g lb.id la.id :=
    ⟨lb, hlb, cb, hcbm, hcbto, Or.inr ⟨hcbloc, hcbt, htb, la, hcbto ▸ hla, houtb, hintob⟩⟩
  exact hpair la.id lb.id hab hba

/-! ## Witness graph: two NORMAL lanes joined by mutual continuation
relations, merged into one block. -/

def wLane1 : Lane :=
  ⟨1, .NORMAL, [⟨0, 0, 0⟩, ⟨1, 0, 0⟩], [⟨0, 1, 0⟩, ⟨1, 1, 0⟩], false,
    [⟨2, .SUCCESSOR, [.LANE_CONTINUATION]⟩]⟩

def wLane2 : Lane :=
  ⟨2, .NORMAL, [⟨1, 0, 0⟩, ⟨2, 0, 0⟩], [⟨1, 1, 0⟩, ⟨2, 1, 0⟩], false,
    [⟨1, .PREDECESSOR, [.LANE_CONTINUATION]⟩]⟩

def wG : LaneGraph := ⟨[wLane1, wLane2]⟩

set_option maxRecDepth 4000 in
/-- Witness for C5 on the concrete two-lane graph. -/
theorem analyze_map_partition_witness :
    (∀ x, Relation.ReflTransGen (FollowedEdge wG) 1 x →
      ∃ seg ∈ (analyzeMap wG).getD [], natStr x ∈ seg.lanes) ∧
    ((analyzeMap wG).getD []).Pairwise (fun s t => ∀ a ∈ s.lanes, a ∉ t.lanes) :=
  analyze_map_partition wG ((analyzeMap wG).getD []) 1 [2]
    (by with_unfolding_all decide) (by with_unfolding_all decide)

set_option maxRecDepth 4000 in
/-- Witness for C6: on the concrete two-lane graph, the first boundary
point of lane 1 lies inside the box of the produced segment. -/
theorem analyze_map_containment_witness :
    geoLe (((analyzeMap wG).getD []).headD get_null_block).lower_bound ⟨0, 0, 0⟩ ∧
    geoLe (⟨0, 0, 0⟩ : GeoLocation) (((analyzeMap wG).getD []).headD get_null_block).higher_bound :=
  analyze_map_containment wG ((analyzeMap wG).getD []) (by with_unfolding_all decide)
    (((analyzeMap wG).getD []).headD get_null_block) (by with_unfolding_all decide)
    1 wLane1 (by with_unfolding_all decide) (by with_unfolding_all decide)
    ⟨0, 0, 0⟩ (by with_unfolding_all decide)

set_option maxRecDepth 4000 in
/-- Witness for the amended C4 on the concrete two-lane graph. -/
theorem intersection_boundary_rule_amended_witness :
    (∀ seg ∈ (analyzeMap wG).getD [], ∃ z, natStr z ∈ seg.lanes ∧
       ∀ x, natStr x ∈ seg.lanes → Relation.ReflTransGen (MergeEdge wG) z x) ∧
    (∀ a b : Nat, MergeEdge wG a b → MergeEdge wG b a →
       ∀ seg ∈ (analyzeMap wG).getD [], natStr a ∈ seg.lanes → natStr b ∈ seg.lanes) ∧
    (∀ (la lb : Lane), wG.getLane? la.id = some la → wG.getLane? lb.id = some lb →
       la.type = LaneType.NORMAL → lb.type = LaneType.NORMAL →
       (∃ c ∈ la.contactLanes, c.toLane = lb.id ∧
         (c.location = ContactLocation.SUCCESSOR ∨ c.location = ContactLocation.PREDECESSOR) ∧
         ContactType.LANE_CONTINUATION ∈ c.types) →
       (∃ c ∈ lb.contactLanes, c.toLane = la.id ∧
         (c.location = ContactLocation.SUCCESSOR ∨ c.location = ContactLocation.PREDECESSOR) ∧
         ContactType.LANE_CONTINUATION ∈ c.types) →
       ∀ seg ∈ (analyzeMap wG).getD [], natStr la.id ∈ seg.lanes → natStr lb.id ∈ seg.lanes) :=
  intersection_boundary_rule_amended wG ((analyzeMap wG).getD []) (by with_unfolding_all decide)

end CarlaMonitoring
